import Mathlib

/-!
Verification development for the SCP Ballot Protocol
(`src/scp/BallotProtocol.cpp` of stellar-core).

The per-slot ballot state machine is embedded shallowly:

* `SCPBallot`, `SCPStatement`, `SCPEnvelope` mirror the XDR data model;
  a `Value` is an opaque byte string, modelled as `List Nat` with the
  lexicographic order of `std::vector<uint8_t>`.
* The mutable members of `BallotProtocol` (and the few members of `Slot`
  it touches: the fully-validated flag, the latest-envelope map) become a
  `BPState` record.  `uint32` counters are `Nat`; the single place where
  uint32 overflow is possible (`counter + 1` in `bumpState`) reduces
  modulo `2 ^ 32`.
* Collaborators that live outside `BallotProtocol.cpp` (the quorum-set
  resolution and sanity check, the federated-voting primitives of
  `Slot`/`LocalNode`, the value validator of the driver, the composite
  nomination candidate) are injected through a `BPConfig` record of
  black-box predicates, which is how the specification itself describes
  them ("consumed as a black-box predicate oracle").
* Control flow is modelled with an explicit result type `MRes`: a
  function either returns `ok` with the new state or `err` with the state
  at the moment the exception was thrown (C++ exceptions do not roll the
  state back).  `dbgAssert`/`dbgAbort` are modelled as throwing
  (`Err.assertFail`), matching the design rule that a local invariant
  violation is fatal and must never be silently ignored.
* Recursion (`advanceSlot` re-entering through self-emitted statements)
  is made total with an explicit fuel argument; running out of fuel is a
  distinguished artificial error `Err.outOfFuel`, distinct from every
  modelled C++ `throw`.  The C++ depth counter `mCurrentMessageLevel` is
  modelled faithfully and separately from the fuel.
* Two ghost fields instrument the state without influencing it:
  `emits` logs every call of the driver's `emitEnvelope` together with
  the recursion depth and fully-validated flag at the moment of the
  call, and `maxLevel` records the deepest non-throwing entry of
  `advanceSlot`.
-/

namespace SCPB

/-- Value is an opaque byte string (`xdr::opaque_vec`); ordered
lexicographically like `std::vector<uint8_t>::operator<`. -/
abbrev Value : Type := List Nat

/-- Lexicographic comparison of two values, mirroring the `<` used by
`compareBallots` on `b1.value` / `b2.value`. -/
def valueCompare : Value → Value → Ordering
  | [], [] => .eq
  | [], _ :: _ => .lt
  | _ :: _, [] => .gt
  | a :: as, b :: bs =>
    if a < b then .lt
    else if b < a then .gt
    else valueCompare as bs

/-- The largest `uint32`, used by EXTERNALIZE statements as the implicit
infinite ballot counter. -/
def UINT32MAX : Nat := 4294967295

/-- A ballot `(counter, value)` (`SCPBallot` in the XDR schema). -/
structure SCPBallot where
  counter : Nat
  value : Value
deriving DecidableEq, Repr

/-- Total comparison of ballots: by counter, then by value
(`BallotProtocol::compareBallots(SCPBallot const&, SCPBallot const&)`). -/
def compareBallots (b1 b2 : SCPBallot) : Ordering :=
  if b1.counter < b2.counter then .lt
  else if b2.counter < b1.counter then .gt
  else valueCompare b1.value b2.value

/-- Comparison of two optional ballots, `none` below `some`
(`BallotProtocol::compareBallots` on `std::unique_ptr<SCPBallot>`). -/
def compareBallotsOpt : Option SCPBallot → Option SCPBallot → Ordering
  | some b1, some b2 => compareBallots b1 b2
  | some _, none => .gt
  | none, some _ => .lt
  | none, none => .eq

/-- Two ballots are compatible iff their values are equal
(`areBallotsCompatible`). -/
def areBallotsCompatible (b1 b2 : SCPBallot) : Bool :=
  b1.value = b2.value

/-- Less-and-incompatible: `b1 <= b2` and different values
(`areBallotsLessAndIncompatible`). -/
def areBallotsLessAndIncompatible (b1 b2 : SCPBallot) : Bool :=
  (compareBallots b1 b2 ≠ .gt) && !(areBallotsCompatible b1 b2)

/-- Less-and-compatible: `b1 <= b2` and equal values
(`areBallotsLessAndCompatible`). -/
def areBallotsLessAndCompatible (b1 b2 : SCPBallot) : Bool :=
  (compareBallots b1 b2 ≠ .gt) && areBallotsCompatible b1 b2

/-- Node identity (public key in the source, opaque here). -/
abbrev NodeID : Type := Nat

/-- Payload of an `SCP_ST_PREPARE` statement. -/
structure StPrepare where
  quorumSetHash : Nat
  ballot : SCPBallot
  prepared : Option SCPBallot
  preparedPrime : Option SCPBallot
  nC : Nat
  nH : Nat
deriving DecidableEq, Repr

/-- Payload of an `SCP_ST_CONFIRM` statement. -/
structure StConfirm where
  ballot : SCPBallot
  nPrepared : Nat
  nCommit : Nat
  nH : Nat
  quorumSetHash : Nat
deriving DecidableEq, Repr

/-- Payload of an `SCP_ST_EXTERNALIZE` statement. -/
structure StExternalize where
  commit : SCPBallot
  nH : Nat
  commitQuorumSetHash : Nat
deriving DecidableEq, Repr

/-- The pledges union of a ballot-protocol statement.  The fourth XDR
variant (`SCP_ST_NOMINATE`) belongs to the nomination protocol and never
reaches `BallotProtocol` (every `switch` in the source hits `dbgAbort()`
for it), so it is not part of the embedding. -/
inductive Pledges where
  | prepare (p : StPrepare)
  | confirm (c : StConfirm)
  | externalize (e : StExternalize)
deriving DecidableEq, Repr

/-- An `SCPStatement`: originating node plus pledges (the slot index is a
single fixed slot here and is omitted). -/
structure SCPStatement where
  nodeID : NodeID
  pledges : Pledges
deriving DecidableEq, Repr

/-- An `SCPEnvelope` is a statement plus an externally produced signature;
the signature never influences `BallotProtocol`, so the envelope carries
just the statement. -/
structure SCPEnvelope where
  statement : SCPStatement
deriving DecidableEq, Repr

/-- An `SCPEnvelopeWrapper` handle (`SCPEnvelopeWrapperPtr`).  The `id`
models `shared_ptr` identity: two wrappers are the same pointer iff their
ids are equal; fresh wrappers receive fresh ids. -/
structure EnvWrapper where
  id : Nat
  env : SCPEnvelope
deriving DecidableEq, Repr

/-- The three phases of the ballot protocol (`SCP_PHASE_*`). -/
inductive SCPPhase where
  | prepare
  | confirm
  | externalize
deriving DecidableEq, Repr

/-- Result of `processEnvelope` (`SCP::EnvelopeState`). -/
inductive EnvelopeState where
  | valid
  | invalid
deriving DecidableEq, Repr

/-- Validation levels returned by the injected value validator
(`SCPDriver::ValidationLevel`), ordered `invalid < maybeValid <
fullyValidated` as in the source enum. -/
inductive ValidationLevel where
  | invalid
  | maybeValid
  | fullyValidated
deriving DecidableEq, Repr

/-- Numeric rank of a validation level (the C++ enum value), used for the
`std::min`-accumulation in `validateValues`. -/
def ValidationLevel.rank : ValidationLevel → Nat
  | .invalid => 0
  | .maybeValid => 1
  | .fullyValidated => 2

/-- Minimum of two validation levels (by enum rank). -/
def vlMin (a b : ValidationLevel) : ValidationLevel :=
  if a.rank ≤ b.rank then a else b

/-- Ghost record of one `emitEnvelope` driver call: the envelope together
with the recursion depth and the slot's fully-validated flag observed at
the moment of the call. -/
structure EmitEvent where
  env : SCPEnvelope
  level : Nat
  fullyValidated : Bool
deriving DecidableEq, Repr

/-- The mutable state of one slot's `BallotProtocol` (plus the members of
`Slot` it reads and writes).  `latestEnvelopes` is the `std::map` of the
latest envelope per node, kept sorted by node id.  `emits` (ghost) logs
driver `emitEnvelope` calls newest-first, and `maxLevel` (ghost) tracks
the deepest non-throwing `advanceSlot` entry. -/
structure BPState where
  phase : SCPPhase
  currentBallot : Option SCPBallot
  prepared : Option SCPBallot
  preparedPrime : Option SCPBallot
  highBallot : Option SCPBallot
  commit : Option SCPBallot
  latestEnvelopes : List (NodeID × EnvWrapper)
  valueOverride : Option Value
  heardFromQuorum : Bool
  msgLevel : Nat
  timerExpCount : Nat
  lastEnvelope : Option EnvWrapper
  lastEnvelopeEmit : Option EnvWrapper
  fullyValidated : Bool
  nominationStopped : Bool
  timerArmed : Bool
  nextWrapperId : Nat
  recordedStatements : List SCPStatement
  emits : List EmitEvent
  maxLevel : Nat
deriving DecidableEq, Repr

/-- The freshly constructed ballot state of a slot
(`BallotProtocol::BallotProtocol`): phase PREPARE, nothing set.  A slot
starts fully validated; the flag is cleared on maybe-valid values. -/
def initialBPState : BPState where
  phase := .prepare
  currentBallot := none
  prepared := none
  preparedPrime := none
  highBallot := none
  commit := none
  latestEnvelopes := []
  valueOverride := none
  heardFromQuorum := false
  msgLevel := 0
  timerExpCount := 0
  lastEnvelope := none
  lastEnvelopeEmit := none
  fullyValidated := true
  nominationStopped := false
  timerArmed := false
  nextWrapperId := 0
  recordedStatements := []
  emits := []
  maxLevel := 0

/-- Injected collaborators.  `BallotProtocol.cpp` reaches them through
`mSlot`, `LocalNode` and `SCPDriver`, none of which are part of the
ballot-protocol core; the specification treats them as black-box
oracles, and so does the embedding.  `qSetSane st` stands for
"`mSlot.getQuorumSetFromStatement(st)` is non-null and
`isQuorumSetSane` accepts it"; `federatedAccept`/`federatedRatify`/
`isVBlocking`/`isQuorum` are the federated-voting primitives evaluated
against the latest-envelope map; `validateValue` is the driver's value
validator; `compositeCandidate` is `mSlot.getLatestCompositeCandidate`. -/
structure BPConfig where
  localID : NodeID
  localQSetHash : Nat
  qSetSane : SCPStatement → Bool
  validateValue : Value → ValidationLevel
  compositeCandidate : Option Value
  federatedAccept : (SCPStatement → Bool) → (SCPStatement → Bool) →
    List (NodeID × EnvWrapper) → Bool
  federatedRatify : (SCPStatement → Bool) → List (NodeID × EnvWrapper) → Bool
  isVBlocking : (SCPStatement → Bool) → List (NodeID × EnvWrapper) → Bool
  isQuorum : (SCPStatement → Bool) → List (NodeID × EnvWrapper) → Bool

/-- Errors: modelled C++ `throw`s / fatal assertions, plus the artificial
fuel-exhaustion marker of the embedding. -/
inductive Err where
  | assertFail
  | recursionCap
  | badSelfState
  | setStateAfterStart
  | outOfFuel
deriving DecidableEq, Repr

/-- Result of a state-transforming operation: either a normal return
carrying the new state, or an exception carrying the state at throw
time. -/
inductive MRes (α : Type) where
  | ok (s : BPState) (a : α)
  | err (s : BPState) (e : Err)
deriving DecidableEq, Repr

/-- State of the result, whether or not an exception escaped. -/
def MRes.state : MRes α → BPState
  | .ok s _ => s
  | .err s _ => s

/-- Numeric rank of a pledges variant: the XDR enum order
`SCP_ST_PREPARE < SCP_ST_CONFIRM < SCP_ST_EXTERNALIZE`. -/
def pledgeTypeRank : Pledges → Nat
  | .prepare _ => 0
  | .confirm _ => 1
  | .externalize _ => 2

/-- Statement total order (`BallotProtocol::isNewerStatement` on two
statements): first by variant rank, then per-variant lexicographically;
two EXTERNALIZE statements never compare newer. -/
def isNewerStatement (oldst st : SCPStatement) : Bool :=
  if pledgeTypeRank oldst.pledges ≠ pledgeTypeRank st.pledges then
    pledgeTypeRank oldst.pledges < pledgeTypeRank st.pledges
  else
    match oldst.pledges, st.pledges with
    | .externalize _, .externalize _ => false
    | .confirm oldC, .confirm c =>
      (match compareBallots oldC.ballot c.ballot with
       | .lt => true
       | .eq =>
         if oldC.nPrepared = c.nPrepared then oldC.nH < c.nH
         else oldC.nPrepared < c.nPrepared
       | .gt => false)
    | .prepare oldPrep, .prepare prep =>
      (match compareBallots oldPrep.ballot prep.ballot with
       | .lt => true
       | .eq =>
         (match compareBallotsOpt oldPrep.prepared prep.prepared with
          | .lt => true
          | .eq =>
            (match compareBallotsOpt oldPrep.preparedPrime prep.preparedPrime with
             | .lt => true
             | .eq => oldPrep.nH < prep.nH
             | .gt => false)
          | .gt => false)
       | .gt => false)
    | _, _ => false

/-- Lookup in the latest-envelope map. -/
def lookupEnv : List (NodeID × EnvWrapper) → NodeID → Option EnvWrapper
  | [], _ => none
  | (k, v) :: rest, n => if n = k then some v else lookupEnv rest n

/-- Insert or overwrite in the latest-envelope map, keeping it sorted by
node id (`std::map` iteration order). -/
def upsertEnv : List (NodeID × EnvWrapper) → NodeID → EnvWrapper →
    List (NodeID × EnvWrapper)
  | [], n, w => [(n, w)]
  | (k, v) :: rest, n, w =>
    if n < k then (n, w) :: (k, v) :: rest
    else if n = k then (n, w) :: rest
    else (k, v) :: upsertEnv rest n w

/-- Shape part of `BallotProtocol::isStatementSane` (everything after the
quorum-set check). -/
def statementShapeSane (st : SCPStatement) (self : Bool) : Bool :=
  match st.pledges with
  | .prepare p =>
    -- self is allowed to have b = 0 (as long as it never gets emitted)
    (self || decide (p.ballot.counter > 0)) &&
    (match p.prepared, p.preparedPrime with
     | some prep, some prepPrime => areBallotsLessAndIncompatible prepPrime prep
     | _, _ => true) &&
    (p.nH = 0 ||
      (match p.prepared with
       | some prep => decide (p.nH ≤ prep.counter)
       | none => false)) &&
    -- c != 0 -> c <= h <= b
    (p.nC = 0 ||
      (p.nH ≠ 0 && decide (p.ballot.counter ≥ p.nH) && decide (p.nH ≥ p.nC)))
  | .confirm c =>
    -- c <= h <= b
    decide (c.ballot.counter > 0) && decide (c.nH ≤ c.ballot.counter) &&
      decide (c.nCommit ≤ c.nH)
  | .externalize e =>
    decide (e.commit.counter > 0) && decide (e.nH ≥ e.commit.counter)

/-- Full `BallotProtocol::isStatementSane`: the statement's companion
quorum set must resolve and be sane, then the per-variant shape checks. -/
def isStatementSane (cfg : BPConfig) (st : SCPStatement) (self : Bool) : Bool :=
  cfg.qSetSane st && statementShapeSane st self

/-- Working ballot of a statement
(`BallotProtocol::getWorkingBallot`). -/
def getWorkingBallot (st : SCPStatement) : SCPBallot :=
  match st.pledges with
  | .prepare p => p.ballot
  | .confirm con => ⟨con.nCommit, con.ballot.value⟩
  | .externalize e => e.commit

/-- Does the statement witness acceptance of a prepared ballot `≥ ballot`
and compatible (`BallotProtocol::hasPreparedBallot`)? -/
def hasPreparedBallot (ballot : SCPBallot) (st : SCPStatement) : Bool :=
  match st.pledges with
  | .prepare p =>
    (match p.prepared with
     | some prep => areBallotsLessAndCompatible ballot prep
     | none => false) ||
    (match p.preparedPrime with
     | some prepPrime => areBallotsLessAndCompatible ballot prepPrime
     | none => false)
  | .confirm c => areBallotsLessAndCompatible ballot ⟨c.nPrepared, c.ballot.value⟩
  | .externalize e => areBallotsCompatible ballot e.commit

/-- An interval of commit counters `(lo, hi)`. -/
abbrev Interval : Type := Nat × Nat

/-- Does the statement accept commits over the whole interval
(`BallotProtocol::commitPredicate`)? -/
def commitPredicate (ballot : SCPBallot) (check : Interval) (st : SCPStatement) :
    Bool :=
  match st.pledges with
  | .prepare _ => false
  | .confirm c =>
    areBallotsCompatible ballot c.ballot &&
      decide (c.nCommit ≤ check.1) && decide (check.2 ≤ c.nH)
  | .externalize e =>
    areBallotsCompatible ballot e.commit && decide (e.commit.counter ≤ check.1)

/-- Ballot counter a statement is working on; EXTERNALIZE counts as
infinite (`statementBallotCounter`). -/
def statementBallotCounter (st : SCPStatement) : Nat :=
  match st.pledges with
  | .prepare p => p.ballot.counter
  | .confirm c => c.ballot.counter
  | .externalize _ => UINT32MAX

/-- Is there a v-blocking set of senders whose working counters all exceed
`n` (`hasVBlockingSubsetStrictlyAheadOf`)? -/
def hasVBlockingAheadOf (cfg : BPConfig) (envs : List (NodeID × EnvWrapper))
    (n : Nat) : Bool :=
  cfg.isVBlocking (fun st => decide (statementBallotCounter st > n)) envs

/-- Ordered insertion into a duplicate-free sorted list of values
(`std::set<Value>`). -/
def insertValueSorted (v : Value) : List Value → List Value
  | [] => [v]
  | x :: xs =>
    match valueCompare v x with
    | .lt => v :: x :: xs
    | .eq => x :: xs
    | .gt => x :: insertValueSorted v xs

/-- Ordered insertion into a duplicate-free sorted list of ballots
(`std::set<SCPBallot>`). -/
def insertBallotSorted (b : SCPBallot) : List SCPBallot → List SCPBallot
  | [] => [b]
  | x :: xs =>
    match compareBallots b x with
    | .lt => b :: x :: xs
    | .eq => x :: xs
    | .gt => x :: insertBallotSorted b xs

/-- Ordered insertion into a duplicate-free sorted list of counters
(`std::set<uint32>`). -/
def insertNatSorted (n : Nat) : List Nat → List Nat
  | [] => [n]
  | x :: xs =>
    if n < x then n :: x :: xs
    else if n = x then x :: xs
    else x :: insertNatSorted n xs

/-- Values referenced by a statement (`BallotProtocol::getStatementValues`,
a `std::set<Value>`). -/
def getStatementValues (st : SCPStatement) : List Value :=
  match st.pledges with
  | .prepare prep =>
    let vs : List Value := if prep.ballot.counter ≠ 0 then [prep.ballot.value] else []
    let vs := match prep.prepared with
      | some p => insertValueSorted p.value vs
      | none => vs
    (match prep.preparedPrime with
     | some pp => insertValueSorted pp.value vs
     | none => vs)
  | .confirm c => [c.ballot.value]
  | .externalize e => [e.commit.value]

/-- Worst validation level over the statement's values
(`BallotProtocol::validateValues`): empty value set is invalid, otherwise
a min-accumulation that stops querying once invalid. -/
def validateValues (cfg : BPConfig) (st : SCPStatement) : ValidationLevel :=
  let values := getStatementValues st
  if values.isEmpty then .invalid
  else
    values.foldl
      (fun lv v => if lv.rank > 0 then vlMin (cfg.validateValue v) lv else lv)
      .fullyValidated

/-- Candidate ballots contributed by one recorded statement for a given
top vote (body of the inner loop of `getPrepareCandidates`). -/
def candidatesFromStatement (topVote : SCPBallot) (st : SCPStatement)
    (cands : List SCPBallot) : List SCPBallot :=
  match st.pledges with
  | .prepare prep =>
    let cands :=
      if areBallotsLessAndCompatible prep.ballot topVote then
        insertBallotSorted prep.ballot cands
      else cands
    let cands :=
      match prep.prepared with
      | some p =>
        if areBallotsLessAndCompatible p topVote then insertBallotSorted p cands
        else cands
      | none => cands
    (match prep.preparedPrime with
     | some pp =>
       if areBallotsLessAndCompatible pp topVote then insertBallotSorted pp cands
       else cands
     | none => cands)
  | .confirm con =>
    if areBallotsCompatible topVote con.ballot then
      let cands := insertBallotSorted topVote cands
      if con.nPrepared < topVote.counter then
        insertBallotSorted ⟨con.nPrepared, topVote.value⟩ cands
      else cands
    else cands
  | .externalize ext =>
    if areBallotsCompatible topVote ext.commit then insertBallotSorted topVote cands
    else cands

/-- Candidate ballots derivable from a hint statement and the envelope
map (`BallotProtocol::getPrepareCandidates`), as an ascending
duplicate-free list.  The source pops hint ballots highest-first and
unions per-envelope contributions into a set; the union is
order-independent, so a fold over the hint ballots produces the same
set. -/
def getPrepareCandidates (hint : SCPStatement)
    (envs : List (NodeID × EnvWrapper)) : List SCPBallot :=
  let hintBallots : List SCPBallot :=
    match hint.pledges with
    | .prepare prep =>
      let l := insertBallotSorted prep.ballot []
      let l := match prep.prepared with
        | some p => insertBallotSorted p l
        | none => l
      (match prep.preparedPrime with
       | some pp => insertBallotSorted pp l
       | none => l)
    | .confirm con =>
      insertBallotSorted ⟨con.nPrepared, con.ballot.value⟩
        (insertBallotSorted ⟨UINT32MAX, con.ballot.value⟩ [])
    | .externalize ext => [⟨UINT32MAX, ext.commit.value⟩]
  hintBallots.foldl
    (fun cands topVote =>
      envs.foldl (fun cands e => candidatesFromStatement topVote e.2.env.statement cands)
        cands)
    []

/-- Commit-counter boundaries contributed by the recorded statements
compatible with the ballot (`getCommitBoundariesFromStatements`), as an
ascending duplicate-free list. -/
def getCommitBoundariesFromStatements (ballot : SCPBallot)
    (envs : List (NodeID × EnvWrapper)) : List Nat :=
  envs.foldl
    (fun res e =>
      match e.2.env.statement.pledges with
      | .prepare p =>
        if areBallotsCompatible ballot p.ballot then
          if p.nC ≠ 0 then insertNatSorted p.nH (insertNatSorted p.nC res) else res
        else res
      | .confirm c =>
        if areBallotsCompatible ballot c.ballot then
          insertNatSorted c.nH (insertNatSorted c.nCommit res)
        else res
      | .externalize e2 =>
        if areBallotsCompatible ballot e2.commit then
          insertNatSorted UINT32MAX
            (insertNatSorted e2.nH (insertNatSorted e2.commit.counter res))
        else res)
    []

/-- Widest-interval search over the boundaries, iterated top-down
(`BallotProtocol::findExtendedInterval`); takes the boundaries in
descending order. -/
def findExtendedInterval (pred : Interval → Bool) :
    List Nat → Interval → Interval
  | [], cand => cand
  | b :: rest, cand =>
    if cand.1 = 0 then
      -- first, find the high bound
      if pred (b, b) then findExtendedInterval pred rest (b, b)
      else findExtendedInterval pred rest cand
    else if b > cand.2 then findExtendedInterval pred rest cand
    else if pred (b, cand.2) then findExtendedInterval pred rest (b, cand.2)
    else cand

/-- Voted predicate of `attemptAcceptPrepared`'s `federatedAccept` call:
does the statement vote for this ballot being prepared? -/
def acceptPrepVoted (ballot : SCPBallot) (st : SCPStatement) : Bool :=
  match st.pledges with
  | .prepare p => areBallotsLessAndCompatible ballot p.ballot
  | .confirm c => areBallotsCompatible ballot c.ballot
  | .externalize e => areBallotsCompatible ballot e.commit

/-- Voted predicate of `attemptAcceptCommit`'s `federatedAccept` call:
does the statement vote to commit everything in the interval? -/
def acceptCommitVoted (ballot : SCPBallot) (cur : Interval)
    (st : SCPStatement) : Bool :=
  match st.pledges with
  | .prepare p =>
    areBallotsCompatible ballot p.ballot && p.nC ≠ 0 &&
      decide (p.nC ≤ cur.1) && decide (cur.2 ≤ p.nH)
  | .confirm c =>
    areBallotsCompatible ballot c.ballot && decide (c.nCommit ≤ cur.1)
  | .externalize e =>
    areBallotsCompatible ballot e.commit && decide (e.commit.counter ≤ cur.1)

/-- The interval predicate used by `attemptAcceptCommit`. -/
def acceptCommitPred (cfg : BPConfig) (envs : List (NodeID × EnvWrapper))
    (ballot : SCPBallot) (cur : Interval) : Bool :=
  cfg.federatedAccept (acceptCommitVoted ballot cur) (commitPredicate ballot cur)
    envs

/-- The interval predicate used by `attemptConfirmCommit`. -/
def confirmCommitPred (cfg : BPConfig) (envs : List (NodeID × EnvWrapper))
    (ballot : SCPBallot) (cur : Interval) : Bool :=
  cfg.federatedRatify (commitPredicate ballot cur) envs

/-- Invariant checked by `BallotProtocol::checkInvariants`: the assertion
body as a boolean (a null dereference inside an assertion counts as a
failure). -/
def checkInvariantsB (s : BPState) : Bool :=
  (match s.phase with
   | .prepare => true
   | _ =>
     s.currentBallot.isSome && s.prepared.isSome && s.commit.isSome &&
       s.highBallot.isSome) &&
  (match s.currentBallot with
   | some b => b.counter ≠ 0
   | none => true) &&
  (match s.prepared, s.preparedPrime with
   | some p, some pp => areBallotsLessAndIncompatible pp p
   | _, _ => true) &&
  (match s.highBallot with
   | some h =>
     (match s.currentBallot with
      | some b => areBallotsLessAndCompatible h b
      | none => false)
   | none => true) &&
  (match s.commit with
   | some c =>
     s.currentBallot.isSome &&
     (match s.highBallot with
      | some h =>
        areBallotsLessAndCompatible c h &&
        (match s.currentBallot with
         | some b => areBallotsLessAndCompatible h b
         | none => false)
      | none => false)
   | none => true)

/-- The global invariants of the ballot state as a proposition. -/
def Inv (s : BPState) : Prop := checkInvariantsB s = true

instance (s : BPState) : Decidable (Inv s) :=
  inferInstanceAs (Decidable (checkInvariantsB s = true))

/-- Run `checkInvariants`: throw on violation (`dbgAssert` is fatal). -/
def runCheckInvariants (s : BPState) : MRes Unit :=
  if checkInvariantsB s then .ok s () else .err s .assertFail

/-- Store the envelope as the node's latest and record the statement with
the slot (`BallotProtocol::recordEnvelope`). -/
def recordEnvelope (w : EnvWrapper) (s : BPState) : BPState :=
  { s with
    latestEnvelopes := upsertEnv s.latestEnvelopes w.env.statement.nodeID w
    recordedStatements := w.env.statement :: s.recordedStatements }

/-- Adopt a new current ballot (`BallotProtocol::bumpToBallot`).  The
`check` flag guards the monotonicity assertion; incompatible `h` (and
with it `c`) is cleared; a counter change resets heard-from-quorum. -/
def bumpToBallot (ballot : SCPBallot) (check : Bool) (s : BPState) :
    MRes Unit :=
  -- `bumpToBallot` should be never called once we committed.
  if s.phase = .externalize then .err s .assertFail
  else if check &&
      !(match s.currentBallot with
        | some cb => compareBallots ballot cb ≠ .lt
        | none => true) then
    -- we should move mCurrentBallot monotonically only
    .err s .assertFail
  else
    let gotBumped :=
      match s.currentBallot with
      | none => true
      | some cb => cb.counter ≠ ballot.counter
    let s := { s with currentBallot := some ballot }
    let s :=
      match s.highBallot with
      | some h =>
        if !areBallotsCompatible ballot h then
          { s with highBallot := none, commit := none }
        else s
      | none => s
    let s := if gotBumped then { s with heardFromQuorum := false } else s
    .ok s ()

/-- Update the current ballot enforcing invariants
(`BallotProtocol::updateCurrentValue`); returns whether the ballot
changed. -/
def updateCurrentValue (ballot : SCPBallot) (s : BPState) : MRes Bool :=
  if s.phase ≠ .prepare && s.phase ≠ .confirm then .ok s false
  else
    match s.currentBallot with
    | none =>
      (match bumpToBallot ballot true s with
       | .err s e => .err s e
       | .ok s _ =>
         match runCheckInvariants s with
         | .err s e => .err s e
         | .ok s _ => .ok s true)
    | some cb =>
      if compareBallots cb ballot = .gt then
        -- dbgAssert(compareBallots(mCurrentBallot, ballot) <= 0); the
        -- subsequent comp > 0 branch logs and refuses, but the assertion
        -- fires first
        .err s .assertFail
      else if (match s.commit with
               | some c => !areBallotsCompatible c ballot
               | none => false) then .ok s false
      else
        match compareBallots cb ballot with
        | .lt =>
          (match bumpToBallot ballot true s with
           | .err s e => .err s e
           | .ok s _ =>
             match runCheckInvariants s with
             | .err s e => .err s e
             | .ok s _ => .ok s true)
        | _ =>
          (match runCheckInvariants s with
           | .err s e => .err s e
           | .ok s _ => .ok s false)

/-- Raise the current ballot to `h` if it is lower
(`BallotProtocol::updateCurrentIfNeeded`). -/
def updateCurrentIfNeeded (h : SCPBallot) (s : BPState) : MRes Bool :=
  let need : Bool :=
    match s.currentBallot with
    | none => true
    | some cb => decide (compareBallots cb h = .lt)
  if need then
    match bumpToBallot h true s with
    | .err s e => .err s e
    | .ok s _ => .ok s true
  else .ok s false

/-- Update `p` and `p'` with a newly accepted prepared ballot
(`BallotProtocol::setPrepared`); returns the new state and whether
anything changed. -/
def setPrepared (ballot : SCPBallot) (s : BPState) : BPState × Bool :=
  match s.prepared with
  | some p =>
    (match compareBallots p ballot with
     | .lt =>
       -- as we're replacing p, we see if we should also replace p'
       let s :=
         if !areBallotsCompatible p ballot then { s with preparedPrime := some p }
         else s
       ({ s with prepared := some ballot }, true)
     | .gt =>
       let upd : Bool :=
         match s.preparedPrime with
         | none => true
         | some pp =>
           decide (compareBallots pp ballot = .lt) && !areBallotsCompatible p ballot
       if upd then ({ s with preparedPrime := some ballot }, true) else (s, false)
     | .eq => (s, false))
  | none => ({ s with prepared := some ballot }, true)

/-- Synthesize the statement describing the current state
(`BallotProtocol::createStatement` for the phase's statement type,
including its leading `checkInvariants` call); `Slot::createEnvelope`
stamps the local node id. -/
def createStatement (cfg : BPConfig) (s : BPState) : MRes SCPStatement :=
  if !checkInvariantsB s then .err s .assertFail
  else
    match s.phase with
    | .prepare =>
      .ok s
        { nodeID := cfg.localID
          pledges := .prepare
            { quorumSetHash := cfg.localQSetHash
              -- fields default to counter 0 / empty value when unset
              ballot := s.currentBallot.getD ⟨0, []⟩
              prepared := s.prepared
              preparedPrime := s.preparedPrime
              nC := match s.commit with | some c => c.counter | none => 0
              nH := match s.highBallot with | some h => h.counter | none => 0 } }
    | .confirm =>
      (match s.currentBallot, s.prepared, s.commit, s.highBallot with
       | some b, some p, some c, some h =>
         .ok s
           { nodeID := cfg.localID
             pledges := .confirm
               { ballot := b, nPrepared := p.counter, nCommit := c.counter
                 nH := h.counter, quorumSetHash := cfg.localQSetHash } }
       | _, _, _, _ => .err s .assertFail)
    | .externalize =>
      (match s.commit, s.highBallot with
       | some c, some h =>
         .ok s
           { nodeID := cfg.localID
             pledges := .externalize
               { commit := c, nH := h.counter
                 commitQuorumSetHash := cfg.localQSetHash } }
       | _, _ => .err s .assertFail)

/-- Broadcast the pending envelope when allowed
(`BallotProtocol::sendLatestEnvelope`): only at recursion depth 0, only
when fully validated, and only when the pending envelope is not the one
already broadcast (shared-pointer comparison, modelled by wrapper id). -/
def sendLatestEnvelope (s : BPState) : BPState :=
  match s.lastEnvelope with
  | some w =>
    if s.msgLevel = 0 && s.fullyValidated then
      let doEmit :=
        match s.lastEnvelopeEmit with
        | none => true
        | some we => we.id ≠ w.id
      if doEmit then
        { s with
          lastEnvelopeEmit := some w
          emits := ⟨w.env, s.msgLevel, s.fullyValidated⟩ :: s.emits }
      else s
    else s
  | none => s

/-- Re-evaluate heard-from-quorum and arm/cancel the ballot timer
(`BallotProtocol::checkHeardFromQuorum`). -/
def checkHeardFromQuorum (cfg : BPConfig) (s : BPState) : BPState :=
  match s.currentBallot with
  | none => s
  | some cb =>
    if cfg.isQuorum
        (fun st =>
          match st.pledges with
          | .prepare p => decide (cb.counter ≤ p.ballot.counter)
          | _ => true)
        s.latestEnvelopes then
      let oldHQ := s.heardFromQuorum
      let s := { s with heardFromQuorum := true }
      let s :=
        if !oldHQ && s.phase ≠ .externalize then { s with timerArmed := true }
        else s
      if s.phase = .externalize then { s with timerArmed := false } else s
    else { s with heardFromQuorum := false, timerArmed := false }

/-- Candidate scan of `attemptAcceptPrepared` (the loop over the
candidate set, highest first): skips candidates per the source's
`continue` conditions and returns the first federated-accepted one;
`Except.error` models a fatal assertion (null dereference or the
commit-compatibility `dbgAssert`) inside the loop. -/
def findAcceptPrepCandidate (cfg : BPConfig) (s : BPState) :
    List SCPBallot → Except Unit (Option SCPBallot)
  | [] => .ok none
  | ballot :: rest =>
    let deeper : Except Unit (Option SCPBallot) :=
      -- if ballot <= p', ballot is neither a candidate for p nor p'
      if (match s.preparedPrime with
          | some pp => decide (compareBallots ballot pp ≠ .gt)
          | none => false) then findAcceptPrepCandidate cfg s rest
      else if (match s.prepared with
               | some p => areBallotsLessAndCompatible ballot p
               | none => false) then
        -- if ballot is already covered by p, skip
        findAcceptPrepCandidate cfg s rest
      else if cfg.federatedAccept (acceptPrepVoted ballot)
          (hasPreparedBallot ballot) s.latestEnvelopes then
        .ok (some ballot)
      else findAcceptPrepCandidate cfg s rest
    if s.phase = .confirm then
      -- only consider the ballot if it may help us increase p
      match s.prepared with
      | none => .error ()
      | some p =>
        if !areBallotsLessAndCompatible p ballot then
          findAcceptPrepCandidate cfg s rest
        else
          match s.commit with
          | none => .error ()
          | some c =>
            if !areBallotsCompatible c ballot then .error () else deeper
    else deeper

/-- Search for a new `h` in `attemptConfirmPrepared` (the first ratify
loop, highest candidate first); on success returns the new `h` together
with the rest of the candidate list from that position on (the `newC`
scan resumes there). -/
def findNewH (cfg : BPConfig) (s : BPState) :
    List SCPBallot → Option (SCPBallot × List SCPBallot)
  | [] => none
  | ballot :: rest =>
    -- only consider it if we can potentially raise h
    if (match s.highBallot with
        | some h => decide (compareBallots h ballot ≠ .lt)
        | none => false) then none
    else if cfg.federatedRatify (hasPreparedBallot ballot) s.latestEnvelopes then
      some (ballot, ballot :: rest)
    else findNewH cfg s rest

/-- Downward scan for the commit ballot `c` in `attemptConfirmPrepared`
(step (3) of the white paper), continuing from the position of the new
`h`; `newC` accumulates the lowest ratified candidate, counter 0 meaning
none. -/
def findNewC (cfg : BPConfig) (s : BPState) (newH bBar : SCPBallot) :
    List SCPBallot → SCPBallot → SCPBallot
  | [], newC => newC
  | ballot :: rest, newC =>
    if compareBallots ballot bBar = .lt then newC
    else if !areBallotsLessAndCompatible ballot newH then
      -- c and h must be compatible
      findNewC cfg s newH bBar rest newC
    else if cfg.federatedRatify (hasPreparedBallot ballot) s.latestEnvelopes then
      findNewC cfg s newH bBar rest ballot
    else newC

/-- Restore the ballot state from a previously emitted envelope
(`BallotProtocol::setStateFromEnvelope`); throws if the ballot protocol
has already started. -/
def setStateFromEnvelope (w : EnvWrapper) (s : BPState) :
    MRes Unit :=
  if s.currentBallot.isSome then .err s .setStateAfterStart
  else
    let s := recordEnvelope w s
    let s := { s with lastEnvelope := some w, lastEnvelopeEmit := some w }
    match w.env.statement.pledges with
    | .prepare prep =>
      let b := prep.ballot
      (match bumpToBallot b true s with
       | .err s e => .err s e
       | .ok s _ =>
         let s := match prep.prepared with
           | some p => { s with prepared := some p }
           | none => s
         let s := match prep.preparedPrime with
           | some pp => { s with preparedPrime := some pp }
           | none => s
         let s := if prep.nH ≠ 0 then { s with highBallot := some ⟨prep.nH, b.value⟩ } else s
         let s := if prep.nC ≠ 0 then { s with commit := some ⟨prep.nC, b.value⟩ } else s
         .ok { s with phase := .prepare } ())
    | .confirm c =>
      let v := c.ballot.value
      (match bumpToBallot c.ballot true s with
       | .err s e => .err s e
       | .ok s _ =>
         let s := { s with prepared := some ⟨c.nPrepared, v⟩ }
         let s := { s with highBallot := some ⟨c.nH, v⟩ }
         let s := { s with commit := some ⟨c.nCommit, v⟩ }
         .ok { s with phase := .confirm } ())
    | .externalize ext =>
      let v := ext.commit.value
      (match bumpToBallot ⟨UINT32MAX, v⟩ true s with
       | .err s e => .err s e
       | .ok s _ =>
         let s := { s with prepared := some ⟨UINT32MAX, v⟩ }
         let s := { s with highBallot := some ⟨ext.nH, v⟩ }
         let s := { s with commit := some ext.commit }
         .ok { s with phase := .externalize } ())

/-- Max number of transitions that can occur from processing one message
(`MAX_ADVANCE_SLOT_RECURSION`). -/
def MAX_ADVANCE_SLOT_RECURSION : Nat := 50

/-- The recursive core of the ballot protocol as a record of operations.
The C++ functions below are mutually recursive through self-emitted
statements; the embedding ties the knot with an explicit fuel: `recsAt
cfg (fuel+1)` gives each operation one more level of nested calls than
`recsAt cfg fuel`, and at fuel 0 every operation reports the artificial
`outOfFuel` error. -/
structure Recs where
  processEnvelope : EnvWrapper → Bool → BPState → MRes EnvelopeState
  advanceSlot : SCPStatement → BPState → MRes Unit
  bumpLoop : BPState → MRes Bool
  attemptBump : BPState → MRes Bool
  abandonBallot : Nat → BPState → MRes Bool
  bumpStateForce : Value → Bool → BPState → MRes Bool
  bumpStateN : Value → Nat → BPState → MRes Bool
  emitCurrentStateStatement : BPState → MRes Unit
  attemptAcceptPrepared : SCPStatement → BPState → MRes Bool
  setAcceptPrepared : SCPBallot → BPState → MRes Bool
  attemptConfirmPrepared : SCPStatement → BPState → MRes Bool
  setConfirmPrepared : SCPBallot → SCPBallot → BPState → MRes Bool
  attemptAcceptCommit : SCPStatement → BPState → MRes Bool
  setAcceptCommit : SCPBallot → SCPBallot → BPState → MRes Bool
  attemptConfirmCommit : SCPStatement → BPState → MRes Bool
  setConfirmCommit : SCPBallot → SCPBallot → BPState → MRes Bool

/-- Fuel exhausted: every operation reports the artificial error. -/
def outOfFuelRecs : Recs where
  processEnvelope := fun _ _ s => .err s .outOfFuel
  advanceSlot := fun _ s => .err s .outOfFuel
  bumpLoop := fun s => .err s .outOfFuel
  attemptBump := fun s => .err s .outOfFuel
  abandonBallot := fun _ s => .err s .outOfFuel
  bumpStateForce := fun _ _ s => .err s .outOfFuel
  bumpStateN := fun _ _ s => .err s .outOfFuel
  emitCurrentStateStatement := fun s => .err s .outOfFuel
  attemptAcceptPrepared := fun _ s => .err s .outOfFuel
  setAcceptPrepared := fun _ s => .err s .outOfFuel
  attemptConfirmPrepared := fun _ s => .err s .outOfFuel
  setConfirmPrepared := fun _ _ s => .err s .outOfFuel
  attemptAcceptCommit := fun _ s => .err s .outOfFuel
  setAcceptCommit := fun _ _ s => .err s .outOfFuel
  attemptConfirmCommit := fun _ s => .err s .outOfFuel
  setConfirmCommit := fun _ _ s => .err s .outOfFuel

/- `BallotProtocol::processEnvelope`: sanity, per-sender newness, value
validation, then either the EXTERNALIZE guard or record-and-advance.
Nested calls go through `r`; `stepRecs` below ties the knot. -/
def processEnvelopeB (cfg : BPConfig) (r : Recs) (w : EnvWrapper)
    (self : Bool) (s : BPState) : MRes EnvelopeState :=
    let statement := w.env.statement
    let nodeID := statement.nodeID
    if !isStatementSane cfg statement self then .ok s .invalid
    else
      let newer :=
        match lookupEnv s.latestEnvelopes nodeID with
        | none => true
        | some old => isNewerStatement old.env.statement statement
      if !newer then .ok s .invalid
      else
        let validationRes := validateValues cfg statement
        -- if the value is not valid, we just ignore it
        if validationRes = .invalid then .ok s .invalid
        else if s.phase ≠ .externalize then
          let s :=
            if validationRes = .maybeValid then { s with fullyValidated := false }
            else s
          let s := recordEnvelope w s
          match r.advanceSlot statement s with
          | .err s e => .err s e
          | .ok s _ => .ok s .valid
        else
          -- note: this handles also our own messages,
          -- in particular our final EXTERNALIZE message
          match s.commit with
          | none => .err s .assertFail
          | some c =>
            if c.value = (getWorkingBallot statement).value then
              .ok (recordEnvelope w s) .valid
            else .ok s .invalid
/- `BallotProtocol::advanceSlot`: depth guard, the four attempt steps in
order, the bump loop and heard-from-quorum check at depth 1, then the
batched broadcast. -/
def advanceSlotB (cfg : BPConfig) (r : Recs) (hint : SCPStatement)
    (s : BPState) : MRes Unit :=
    let s := { s with msgLevel := s.msgLevel + 1 }
    if MAX_ADVANCE_SLOT_RECURSION ≤ s.msgLevel then .err s .recursionCap
    else
      let s := { s with maxLevel := max s.maxLevel s.msgLevel }
      match r.attemptAcceptPrepared hint s with
      | .err s e => .err s e
      | .ok s w1 =>
        match r.attemptConfirmPrepared hint s with
        | .err s e => .err s e
        | .ok s w2 =>
          match r.attemptAcceptCommit hint s with
          | .err s e => .err s e
          | .ok s w3 =>
            match r.attemptConfirmCommit hint s with
            | .err s e => .err s e
            | .ok s w4 =>
              -- only bump after we're done with everything else
              match (if s.msgLevel = 1 then r.bumpLoop s else .ok s false) with
              | .err s e => .err s e
              | .ok s w5 =>
                let didWork := w1 || w2 || w3 || w4 || w5
                let s := if s.msgLevel = 1 then checkHeardFromQuorum cfg s else s
                let s := { s with msgLevel := s.msgLevel - 1 }
                let s := if didWork then sendLatestEnvelope s else s
                .ok s ()
/- the `do { didBump = attemptBump(); } while (didBump)` loop at the
bottom of `advanceSlot`; returns whether any bump occurred. -/
def bumpLoopB (_cfg : BPConfig) (r : Recs) (s : BPState) : MRes Bool :=
    match r.attemptBump s with
    | .err s e => .err s e
    | .ok s b =>
      if b then
        match r.bumpLoop s with
        | .err s e => .err s e
        | .ok s _ => .ok s true
      else .ok s false
/- step 9 of the paper (`BallotProtocol::attemptBump`): if a v-blocking
set is strictly ahead of the local counter, move to the smallest
counter for which that is no longer true. -/
def attemptBumpB (cfg : BPConfig) (r : Recs) (s : BPState) : MRes Bool :=
    if s.phase = .prepare || s.phase = .confirm then
      let localCounter :=
        match s.currentBallot with
        | some cb => cb.counter
        | none => 0
      if !hasVBlockingAheadOf cfg s.latestEnvelopes localCounter then .ok s false
      else
        let allCounters :=
          s.latestEnvelopes.foldl
            (fun acc e =>
              let c := statementBallotCounter e.2.env.statement
              if c > localCounter then insertNatSorted c acc else acc)
            []
        match allCounters.find?
            (fun n => !hasVBlockingAheadOf cfg s.latestEnvelopes n) with
        | some n => r.abandonBallot n s
        | none => .ok s false
    else .ok s false
/- `BallotProtocol::abandonBallot`: bump by one counter if `n = 0`, else
to exactly `n`, using the latest composite candidate value when it is
non-empty and the current ballot's value otherwise. -/
def abandonBallotB (cfg : BPConfig) (r : Recs) (n : Nat) (s : BPState) :
    MRes Bool :=
    let v : Option Value :=
      match cfg.compositeCandidate with
      | some cv => if cv.isEmpty then none else some cv
      | none => none
    let v : Option Value :=
      match v with
      | some cv => some cv
      | none =>
        (match s.currentBallot with
         | some cb => if cb.value.isEmpty then none else some cb.value
         | none => none)
    match v with
    | none => .ok s false
    | some value =>
      if n = 0 then r.bumpStateForce value true s
      else r.bumpStateN value n s
/- `BallotProtocol::bumpState(Value, bool)`: computes the next counter
(uint32 increment) and delegates. -/
def bumpStateForceB (_cfg : BPConfig) (r : Recs) (value : Value)
    (force : Bool) (s : BPState) : MRes Bool :=
    if !force && s.currentBallot.isSome then .ok s false
    else
      let n :=
        match s.currentBallot with
        | some cb => (cb.counter + 1) % 4294967296
        | none => 1
      r.bumpStateN value n s
/- `BallotProtocol::bumpState(Value, uint32)`: bump to counter `n`; the
value override (set when a value was confirmed prepared or voted for
commit) takes precedence over the passed value. -/
def bumpStateNB (cfg : BPConfig) (r : Recs) (value : Value) (n : Nat)
    (s : BPState) : MRes Bool :=
    if s.phase ≠ .prepare && s.phase ≠ .confirm then .ok s false
    else
      let newbValue :=
        match s.valueOverride with
        | some ov => ov
        | none => value
      let newb : SCPBallot := ⟨n, newbValue⟩
      match updateCurrentValue newb s with
      | .err s e => .err s e
      | .ok s updated =>
        if updated then
          match r.emitCurrentStateStatement s with
          | .err s e => .err s e
          | .ok s _ => .ok (checkHeardFromQuorum cfg s) true
        else .ok s false
/- `BallotProtocol::emitCurrentStateStatement`: synthesize, self-ingest
and stage the own-state statement. -/
def emitCurrentStateStatementB (cfg : BPConfig) (r : Recs) (s : BPState) :
    MRes Unit :=
    match createStatement cfg s with
    | .err s e => .err s e
    | .ok s statement =>
      let envelope : SCPEnvelope := ⟨statement⟩
      let canEmit := s.currentBallot.isSome
      -- if we generate the same envelope, don't process it again
      let skip : Bool :=
        match lookupEnv s.latestEnvelopes cfg.localID with
        | some lastW => decide (lastW.env = envelope)
        | none => false
      if skip then .ok s ()
      else
        let envW : EnvWrapper := ⟨s.nextWrapperId, envelope⟩
        let s := { s with nextWrapperId := s.nextWrapperId + 1 }
        match r.processEnvelope envW true s with
        | .err s e => .err s e
        | .ok s res =>
          if res = .valid then
            let updateLast :=
              canEmit &&
                (match s.lastEnvelope with
                 | none => true
                 | some le => isNewerStatement le.env.statement envelope.statement)
            if updateLast then
              let s := { s with lastEnvelope := some envW }
              .ok (sendLatestEnvelope s) ()
            else .ok s ()
          else
            -- there is a bug in the application if it queued up a
            -- statement for itself that it considers invalid
            .err s .badSelfState
/- attempt step 1 (`BallotProtocol::attemptAcceptPrepared`). -/
def attemptAcceptPreparedB (cfg : BPConfig) (r : Recs)
    (hint : SCPStatement) (s : BPState) : MRes Bool :=
    if s.phase ≠ .prepare && s.phase ≠ .confirm then .ok s false
    else
      let candidates := getPrepareCandidates hint s.latestEnvelopes
      match findAcceptPrepCandidate cfg s candidates.reverse with
      | .error _ => .err s .assertFail
      | .ok none => .ok s false
      | .ok (some ballot) => r.setAcceptPrepared ballot s
/- `BallotProtocol::setAcceptPrepared`: adopt a newly accepted prepared
ballot, clearing `c` when `h` became less-and-incompatible with `p` or
`p'`. -/
def setAcceptPreparedB (_cfg : BPConfig) (r : Recs) (ballot : SCPBallot)
    (s : BPState) : MRes Bool :=
    let pair := setPrepared ballot s
    let s := pair.1
    let didWork := pair.2
    -- check if we also need to clear 'c'
    let clearC :=
      s.commit.isSome && s.highBallot.isSome &&
        ((match s.highBallot, s.prepared with
          | some h, some p => areBallotsLessAndIncompatible h p
          | _, _ => false) ||
         (match s.highBallot, s.preparedPrime with
          | some h, some pp => areBallotsLessAndIncompatible h pp
          | _, _ => false))
    if clearC then
      if s.phase ≠ .prepare then .err s .assertFail
      else
        let s := { s with commit := none }
        match r.emitCurrentStateStatement s with
        | .err s e => .err s e
        | .ok s _ => .ok s true
    else if didWork then
      match r.emitCurrentStateStatement s with
      | .err s e => .err s e
      | .ok s _ => .ok s true
    else .ok s false
/- attempt step 2 (`BallotProtocol::attemptConfirmPrepared`), PREPARE
phase only: ratify a new `h`, then scan downward for a commit `c`. -/
def attemptConfirmPreparedB (cfg : BPConfig) (r : Recs)
    (hint : SCPStatement) (s : BPState) : MRes Bool :=
    if s.phase ≠ .prepare then .ok s false
    else if s.prepared.isNone then .ok s false
    else
      let candidates := getPrepareCandidates hint s.latestEnvelopes
      match findNewH cfg s candidates.reverse with
      | none => .ok s false
      | some (newH, rest) =>
        let bBar : SCPBallot := s.currentBallot.getD ⟨0, []⟩
        let scanForC :=
          s.commit.isNone &&
            !(match s.prepared with
              | some p => areBallotsLessAndIncompatible newH p
              | none => false) &&
            !(match s.preparedPrime with
              | some pp => areBallotsLessAndIncompatible newH pp
              | none => false)
        let newC : SCPBallot :=
          if scanForC then findNewC cfg s newH bBar rest ⟨0, []⟩ else ⟨0, []⟩
        r.setConfirmPrepared newC newH s
/- `BallotProtocol::setConfirmPrepared`: adopt a confirmed-prepared `h`
(and possibly a commit `c`). -/
def setConfirmPreparedB (_cfg : BPConfig) (r : Recs) (newC newH : SCPBallot)
    (s : BPState) : MRes Bool :=
    -- remember newH's value
    let s := { s with valueOverride := some newH.value }
    -- we don't set c/h if we're not on a compatible ballot
    let compatOK :=
      match s.currentBallot with
      | none => true
      | some cb => areBallotsCompatible cb newH
    let step1 : MRes Bool :=
      if compatOK then
        let pair :=
          if (match s.highBallot with
              | none => true
              | some h => decide (compareBallots newH h = .gt) : Bool) then
            ({ s with highBallot := some newH }, true)
          else (s, false)
        let s1 := pair.1
        if newC.counter ≠ 0 then
          if s1.commit.isSome then .err s1 .assertFail
          else .ok { s1 with commit := some newC } true
        else .ok s1 pair.2
      else .ok s false
    match step1 with
    | .err s e => .err s e
    | .ok s dw =>
      -- always perform step (8) with the computed value of h
      match updateCurrentIfNeeded newH s with
      | .err s e => .err s e
      | .ok s dw2 =>
        if dw2 || dw then
          match r.emitCurrentStateStatement s with
          | .err s e => .err s e
          | .ok s _ => .ok s true
        else .ok s false
/- attempt step 3 (`BallotProtocol::attemptAcceptCommit`): widest
federated-accepted commit interval over the boundaries. -/
def attemptAcceptCommitB (cfg : BPConfig) (r : Recs)
    (hint : SCPStatement) (s : BPState) : MRes Bool :=
    if s.phase ≠ .prepare && s.phase ≠ .confirm then .ok s false
    else
      let ballotOpt : Option SCPBallot :=
        match hint.pledges with
        | .prepare prep =>
          if prep.nC ≠ 0 then some ⟨prep.nH, prep.ballot.value⟩ else none
        | .confirm con => some ⟨con.nH, con.ballot.value⟩
        | .externalize ext => some ⟨ext.nH, ext.commit.value⟩
      match ballotOpt with
      | none => .ok s false
      | some ballot =>
        match
          (if s.phase = .confirm then
            match s.highBallot with
            | none => Except.error Err.assertFail
            | some h => Except.ok (areBallotsCompatible ballot h)
          else Except.ok true : Except Err Bool) with
        | .error e => .err s e
        | .ok false => .ok s false
        | .ok true =>
          let boundaries := getCommitBoundariesFromStatements ballot s.latestEnvelopes
          if boundaries.isEmpty then .ok s false
          else
            let candidate :=
              findExtendedInterval (acceptCommitPred cfg s.latestEnvelopes ballot)
                boundaries.reverse (0, 0)
            if candidate.1 ≠ 0 then
              let proceed :=
                s.phase ≠ .confirm ||
                  (match s.highBallot with
                   | some h => decide (candidate.2 > h.counter)
                   | none => false)
              if proceed then
                r.setAcceptCommit ⟨candidate.1, ballot.value⟩
                  ⟨candidate.2, ballot.value⟩ s
              else .ok s false
            else .ok s false
/- `BallotProtocol::setAcceptCommit`: set `c` and `h`, transition
PREPARE to CONFIRM (possibly rebasing `b` onto `h` and clearing `p'`),
and raise `b` to `h` if needed. -/
def setAcceptCommitB (_cfg : BPConfig) (r : Recs) (c h : SCPBallot)
    (s : BPState) : MRes Bool :=
    -- remember h's value
    let s := { s with valueOverride := some h.value }
    let pair :=
      if (match s.highBallot, s.commit with
          | some hb, some cb =>
            decide (compareBallots hb h ≠ .eq) || decide (compareBallots cb c ≠ .eq)
          | _, _ => true : Bool) then
        ({ s with commit := some c, highBallot := some h }, true)
      else (s, false)
    match
      (if pair.1.phase = .prepare then
        let s := { pair.1 with phase := .confirm }
        match
          (match s.currentBallot with
           | some cb =>
             if !areBallotsLessAndCompatible h cb then bumpToBallot h false s
             else .ok s ()
           | none => .ok s ()) with
        | .err s e => .err s e
        | .ok s _ => .ok { s with preparedPrime := none } true
      else .ok pair.1 pair.2 : MRes Bool) with
    | .err s e => .err s e
    | .ok s dw =>
      if dw then
        match s.highBallot with
        | none => .err s .assertFail
        | some hb =>
          match updateCurrentIfNeeded hb s with
          | .err s e => .err s e
          | .ok s _ =>
            match r.emitCurrentStateStatement s with
            | .err s e => .err s e
            | .ok s _ => .ok s true
      else .ok s false
/- attempt step 4 (`BallotProtocol::attemptConfirmCommit`): ratify a
commit interval and externalize. -/
def attemptConfirmCommitB (cfg : BPConfig) (r : Recs)
    (hint : SCPStatement) (s : BPState) : MRes Bool :=
    if s.phase ≠ .confirm then .ok s false
    else if s.highBallot.isNone || s.commit.isNone then .ok s false
    else
      let ballotOpt : Option SCPBallot :=
        match hint.pledges with
        | .prepare _ => none
        | .confirm con => some ⟨con.nH, con.ballot.value⟩
        | .externalize ext => some ⟨ext.nH, ext.commit.value⟩
      match ballotOpt with
      | none => .ok s false
      | some ballot =>
        match s.commit with
        | none => .ok s false
        | some c =>
          if !areBallotsCompatible ballot c then .ok s false
          else
            let boundaries :=
              getCommitBoundariesFromStatements ballot s.latestEnvelopes
            let candidate :=
              findExtendedInterval (confirmCommitPred cfg s.latestEnvelopes ballot)
                boundaries.reverse (0, 0)
            if candidate.1 ≠ 0 then
              r.setConfirmCommit ⟨candidate.1, ballot.value⟩
                ⟨candidate.2, ballot.value⟩ s
            else .ok s false
/- `BallotProtocol::setConfirmCommit`: final `c`/`h`, phase
EXTERNALIZE, emit, stop nomination. -/
def setConfirmCommitB (_cfg : BPConfig) (r : Recs) (c h : SCPBallot)
    (s : BPState) : MRes Bool :=
    let s := { s with commit := some c, highBallot := some h }
    match updateCurrentIfNeeded h s with
    | .err s e => .err s e
    | .ok s _ =>
      let s := { s with phase := .externalize }
      match r.emitCurrentStateStatement s with
      | .err s e => .err s e
      | .ok s _ =>
        let s := { s with nominationStopped := true }
        .ok s true

/-- One level of the recursive core: each operation translated from
`BallotProtocol.cpp`, with nested calls going through `r`. -/
def stepRecs (cfg : BPConfig) (r : Recs) : Recs where
  processEnvelope := processEnvelopeB cfg r
  advanceSlot := advanceSlotB cfg r
  bumpLoop := bumpLoopB cfg r
  attemptBump := attemptBumpB cfg r
  abandonBallot := abandonBallotB cfg r
  bumpStateForce := bumpStateForceB cfg r
  bumpStateN := bumpStateNB cfg r
  emitCurrentStateStatement := emitCurrentStateStatementB cfg r
  attemptAcceptPrepared := attemptAcceptPreparedB cfg r
  setAcceptPrepared := setAcceptPreparedB cfg r
  attemptConfirmPrepared := attemptConfirmPreparedB cfg r
  setConfirmPrepared := setConfirmPreparedB cfg r
  attemptAcceptCommit := attemptAcceptCommitB cfg r
  setAcceptCommit := setAcceptCommitB cfg r
  attemptConfirmCommit := attemptConfirmCommitB cfg r
  setConfirmCommit := setConfirmCommitB cfg r

/-- The recursive core at a given fuel level. -/
def recsAt (cfg : BPConfig) : Nat → Recs
  | 0 => outOfFuelRecs
  | fuel + 1 => stepRecs cfg (recsAt cfg fuel)

/-- Ingest one envelope (`BallotProtocol::processEnvelope`). -/
def processEnvelope (cfg : BPConfig) (fuel : Nat) :
    EnvWrapper → Bool → BPState → MRes EnvelopeState :=
  (recsAt cfg fuel).processEnvelope

/-- One pass of the advance driver (`BallotProtocol::advanceSlot`). -/
def advanceSlot (cfg : BPConfig) (fuel : Nat) :
    SCPStatement → BPState → MRes Unit :=
  (recsAt cfg fuel).advanceSlot

/-- Abandon the current ballot (`BallotProtocol::abandonBallot`). -/
def abandonBallot (cfg : BPConfig) (fuel : Nat) : Nat → BPState → MRes Bool :=
  (recsAt cfg fuel).abandonBallot

/-- External bump entry (`BallotProtocol::bumpState(Value, bool)`). -/
def bumpState (cfg : BPConfig) (fuel : Nat) :
    Value → Bool → BPState → MRes Bool :=
  (recsAt cfg fuel).bumpStateForce

/-- Timer-expiry entry point
(`BallotProtocol::ballotProtocolTimerExpired`). -/
def ballotProtocolTimerExpired (cfg : BPConfig) (fuel : Nat) (s : BPState) :
    MRes Bool :=
  abandonBallot cfg fuel 0 { s with timerExpCount := s.timerExpCount + 1 }

/-- Process an externally received envelope: the driver wraps it
(`SCPDriver::wrapEnvelope`) with a fresh handle, then
`processEnvelope(env, self=false)` runs. -/
def processEnvelopeExt (cfg : BPConfig) (fuel : Nat) (env : SCPEnvelope)
    (s : BPState) : MRes EnvelopeState :=
  let w : EnvWrapper := ⟨s.nextWrapperId, env⟩
  processEnvelope cfg fuel w false { s with nextWrapperId := s.nextWrapperId + 1 }

/-- Run a sequence of externally received envelopes, stopping at the
first abnormal outcome. -/
def runSeq (cfg : BPConfig) (fuel : Nat) : List SCPEnvelope → BPState →
    Option BPState
  | [], s => some s
  | e :: es, s =>
    match processEnvelopeExt cfg fuel e s with
    | .ok s _ => runSeq cfg fuel es s
    | .err _ _ => none

/-! ## Ordering lemmas for values, ballots and statements -/

theorem valueCompare_refl (v : Value) : valueCompare v v = .eq := by
  induction v with
  | nil => rfl
  | cons a as ih => simp [valueCompare, ih]

theorem valueCompare_eq_iff {a b : Value} : valueCompare a b = .eq ↔ a = b := by
  induction a generalizing b with
  | nil => cases b <;> simp [valueCompare]
  | cons x xs ih =>
    cases b with
    | nil => simp [valueCompare]
    | cons y ys =>
      simp only [valueCompare]
      split
      · simp only [List.cons.injEq]
        constructor
        · intro h; cases h
        · rintro ⟨h1, _⟩; omega
      · split
        · simp only [List.cons.injEq]
          constructor
          · intro h; cases h
          · rintro ⟨h1, _⟩; omega
        · have hxy : x = y := by omega
          subst hxy
          simp [ih]

theorem valueCompare_lt_trans {a b c : Value} (h1 : valueCompare a b = .lt)
    (h2 : valueCompare b c = .lt) : valueCompare a c = .lt := by
  induction a generalizing b c with
  | nil => cases b <;> cases c <;> simp_all [valueCompare]
  | cons x xs ih =>
    cases b with
    | nil => simp [valueCompare] at h1
    | cons y ys =>
      cases c with
      | nil => simp [valueCompare] at h2
      | cons z zs =>
        simp only [valueCompare] at h1 h2 ⊢
        by_cases hxy : x < y
        · by_cases hyz : y < z
          · have hxz : x < z := by omega
            simp [hxz]
          · by_cases hzy : z < y
            · simp [hyz, hzy] at h2
            · have heq : y = z := by omega
              have hxz : x < z := by omega
              simp [hxz]
        · by_cases hyx : y < x
          · simp [hxy, hyx] at h1
          · have heq : x = y := by omega
            subst heq
            simp only [hxy, if_false, lt_irrefl] at h1
            by_cases hxz : x < z
            · simp [hxz]
            · by_cases hzx : z < x
              · simp [hxz, hzx] at h2
              · have heq2 : x = z := by omega
                subst heq2
                simp only [hxz, if_false, lt_irrefl] at h2 ⊢
                exact ih h1 h2

theorem compareBallots_refl (b : SCPBallot) : compareBallots b b = .eq := by
  simp [compareBallots, valueCompare_refl]

theorem compareBallots_eq_iff {a b : SCPBallot} :
    compareBallots a b = .eq ↔ a = b := by
  cases a with
  | mk ca va =>
    cases b with
    | mk cb vb =>
      simp only [compareBallots]
      split
      · constructor
        · intro h; cases h
        · rintro h
          injection h with h1 h2
          omega
      · split
        · constructor
          · intro h; cases h
          · rintro h
            injection h with h1 h2
            omega
        · have : ca = cb := by omega
          subst this
          simp [valueCompare_eq_iff]

theorem compareBallots_lt_trans {a b c : SCPBallot}
    (h1 : compareBallots a b = .lt) (h2 : compareBallots b c = .lt) :
    compareBallots a c = .lt := by
  simp only [compareBallots] at h1 h2 ⊢
  split at h1
  · split at h2
    · have : a.counter < c.counter := by omega
      simp [this]
    · split at h2
      · cases h2
      · have : b.counter = c.counter := by omega
        have : a.counter < c.counter := by omega
        simp [this]
  · split at h1
    · cases h1
    · have hab : a.counter = b.counter := by omega
      split at h2
      · have : a.counter < c.counter := by omega
        simp [this]
      · split at h2
        · cases h2
        · have hbc : b.counter = c.counter := by omega
          have hac : a.counter = c.counter := by omega
          simp only [hac, lt_self_iff_false, if_false]
          exact valueCompare_lt_trans h1 h2

theorem compareBallots_le_trans {a b c : SCPBallot}
    (h1 : compareBallots a b ≠ .gt) (h2 : compareBallots b c ≠ .gt) :
    compareBallots a c ≠ .gt := by
  rcases ho1 : compareBallots a b with _ | _ | _ <;>
    rcases ho2 : compareBallots b c with _ | _ | _ <;>
      first
      | (exact absurd ho1 h1)
      | (exact absurd ho2 h2)
      | (intro hc
         first
         | (rw [compareBallots_eq_iff] at ho1; subst ho1; rw [ho2] at hc; cases hc)
         | (rw [compareBallots_eq_iff] at ho2; subst ho2; rw [ho1] at hc; cases hc)
         | (rw [compareBallots_lt_trans ho1 ho2] at hc; cases hc))

theorem compareBallotsOpt_eq_iff {a b : Option SCPBallot} :
    compareBallotsOpt a b = .eq ↔ a = b := by
  cases a <;> cases b <;> simp [compareBallotsOpt, compareBallots_eq_iff]

theorem compareBallotsOpt_lt_trans {a b c : Option SCPBallot}
    (h1 : compareBallotsOpt a b = .lt) (h2 : compareBallotsOpt b c = .lt) :
    compareBallotsOpt a c = .lt := by
  cases a <;> cases b <;> cases c <;>
    simp_all [compareBallotsOpt, compareBallots_lt_trans]
  exact compareBallots_lt_trans h1 h2

/-- Statement comparison key: the total order of `isNewerStatement`
expressed as a single comparator (variant rank first, then per-variant
lexicographic comparison; two EXTERNALIZE statements compare equal). -/
def cmpStatement (a b : SCPStatement) : Ordering :=
  match a.pledges, b.pledges with
  | .prepare pa, .prepare pb =>
    (compareBallots pa.ballot pb.ballot).then
      ((compareBallotsOpt pa.prepared pb.prepared).then
        ((compareBallotsOpt pa.preparedPrime pb.preparedPrime).then
          (compare pa.nH pb.nH)))
  | .prepare _, _ => .lt
  | .confirm _, .prepare _ => .gt
  | .confirm ca, .confirm cb =>
    (compareBallots ca.ballot cb.ballot).then
      ((compare ca.nPrepared cb.nPrepared).then (compare ca.nH cb.nH))
  | .confirm _, .externalize _ => .lt
  | .externalize _, .externalize _ => .eq
  | .externalize _, _ => .gt

theorem isNewerStatement_iff_lt {a b : SCPStatement} :
    isNewerStatement a b = true ↔ cmpStatement a b = .lt := by
  rcases a with ⟨na, pa⟩
  rcases b with ⟨nb, pb⟩
  rcases pa with p1 | c1 | e1 <;> rcases pb with p2 | c2 | e2 <;>
    simp only [isNewerStatement, cmpStatement, pledgeTypeRank] <;> try simp
  · rcases h1 : compareBallots p1.ballot p2.ballot with _ | _ | _ <;>
      rcases h2 : compareBallotsOpt p1.prepared p2.prepared with _ | _ | _ <;>
      rcases h3 : compareBallotsOpt p1.preparedPrime p2.preparedPrime
        with _ | _ | _ <;>
      simp [h1, h2, h3, Ordering.then, Nat.compare_eq_lt]
  · rcases h1 : compareBallots c1.ballot c2.ballot with _ | _ | _ <;>
      simp only [h1, Ordering.then] <;> try simp
    rcases h2 : compare c1.nPrepared c2.nPrepared with _ | _ | _
    · have h2a : c1.nPrepared < c2.nPrepared := Nat.compare_eq_lt.mp h2
      have hne : c1.nPrepared ≠ c2.nPrepared := by omega
      simp [h2, hne, h2a]
    · have h2a : c1.nPrepared = c2.nPrepared := Nat.compare_eq_eq.mp h2
      simp [h2, h2a, Nat.compare_eq_lt]
    · have h2a : c2.nPrepared < c1.nPrepared := Nat.compare_eq_gt.mp h2
      have hne : c1.nPrepared ≠ c2.nPrepared := by omega
      have hnl : ¬ c1.nPrepared < c2.nPrepared := by omega
      simp [h2, hne, hnl]

theorem then_eq_lt {o1 o2 : Ordering} :
    o1.then o2 = .lt ↔ o1 = .lt ∨ (o1 = .eq ∧ o2 = .lt) := by
  cases o1 <;> simp [Ordering.then]

theorem compareBallotsOpt_refl (a : Option SCPBallot) :
    compareBallotsOpt a a = .eq := by
  cases a <;> simp [compareBallotsOpt, compareBallots_refl]

theorem natCompare_lt_trans {a b c : Nat} (h1 : compare a b = .lt)
    (h2 : compare b c = .lt) : compare a c = .lt := by
  rw [Nat.compare_eq_lt] at h1 h2 ⊢
  omega

theorem cmpStatement_refl (a : SCPStatement) : cmpStatement a a = .eq := by
  rcases a with ⟨na, pa⟩
  rcases pa with p1 | c1 | e1 <;>
    simp [cmpStatement, compareBallots_refl, compareBallotsOpt_refl,
      Ordering.then, Nat.compare_eq_eq.mpr rfl]

theorem cmpStatement_lt_trans {a b c : SCPStatement}
    (h1 : cmpStatement a b = .lt) (h2 : cmpStatement b c = .lt) :
    cmpStatement a c = .lt := by
  rcases a with ⟨na, pa⟩
  rcases b with ⟨nb, pb⟩
  rcases c with ⟨nc, pc⟩
  rcases pa with p1 | c1 | e1 <;> rcases pb with p2 | c2 | e2 <;>
    rcases pc with p3 | c3 | e3 <;>
    simp only [cmpStatement] at h1 h2 ⊢ <;> try simp_all
  · -- PREPARE, PREPARE, PREPARE
    rw [then_eq_lt] at h1 h2 ⊢
    rcases h1 with h1 | ⟨h1e, h1r⟩
    · rcases h2 with h2 | ⟨h2e, h2r⟩
      · exact Or.inl (compareBallots_lt_trans h1 h2)
      · rw [compareBallots_eq_iff] at h2e
        exact Or.inl (h2e ▸ h1)
    · rw [compareBallots_eq_iff] at h1e
      rcases h2 with h2 | ⟨h2e, h2r⟩
      · exact Or.inl (h1e ▸ h2)
      · rw [compareBallots_eq_iff] at h2e
        refine Or.inr ⟨by rw [h1e, h2e, compareBallots_refl], ?_⟩
        rw [then_eq_lt] at h1r h2r ⊢
        rcases h1r with h1' | ⟨h1e', h1r⟩
        · rcases h2r with h2' | ⟨h2e', h2r⟩
          · exact Or.inl (compareBallotsOpt_lt_trans h1' h2')
          · rw [compareBallotsOpt_eq_iff] at h2e'
            exact Or.inl (h2e' ▸ h1')
        · rw [compareBallotsOpt_eq_iff] at h1e'
          rcases h2r with h2' | ⟨h2e', h2r⟩
          · exact Or.inl (h1e' ▸ h2')
          · rw [compareBallotsOpt_eq_iff] at h2e'
            refine Or.inr ⟨by rw [h1e', h2e', compareBallotsOpt_refl], ?_⟩
            rw [then_eq_lt] at h1r h2r ⊢
            rcases h1r with h1'' | ⟨h1e'', h1r⟩
            · rcases h2r with h2'' | ⟨h2e'', h2r⟩
              · exact Or.inl (compareBallotsOpt_lt_trans h1'' h2'')
              · rw [compareBallotsOpt_eq_iff] at h2e''
                exact Or.inl (h2e'' ▸ h1'')
            · rw [compareBallotsOpt_eq_iff] at h1e''
              rcases h2r with h2'' | ⟨h2e'', h2r⟩
              · exact Or.inl (h1e'' ▸ h2'')
              · rw [compareBallotsOpt_eq_iff] at h2e''
                refine Or.inr ⟨by rw [h1e'', h2e'', compareBallotsOpt_refl],
                  natCompare_lt_trans h1r h2r⟩
  · -- CONFIRM, CONFIRM, CONFIRM
    rw [then_eq_lt] at h1 h2 ⊢
    rcases h1 with h1 | ⟨h1e, h1r⟩
    · rcases h2 with h2 | ⟨h2e, h2r⟩
      · exact Or.inl (compareBallots_lt_trans h1 h2)
      · rw [compareBallots_eq_iff] at h2e
        exact Or.inl (h2e ▸ h1)
    · rw [compareBallots_eq_iff] at h1e
      rcases h2 with h2 | ⟨h2e, h2r⟩
      · exact Or.inl (h1e ▸ h2)
      · rw [compareBallots_eq_iff] at h2e
        refine Or.inr ⟨by rw [h1e, h2e, compareBallots_refl], ?_⟩
        rw [then_eq_lt] at h1r h2r ⊢
        rcases h1r with h1' | ⟨h1e', h1r⟩
        · rcases h2r with h2' | ⟨h2e', h2r⟩
          · exact Or.inl (natCompare_lt_trans h1' h2')
          · rw [Nat.compare_eq_eq] at h2e'
            exact Or.inl (h2e' ▸ h1')
        · rw [Nat.compare_eq_eq] at h1e'
          rcases h2r with h2' | ⟨h2e', h2r⟩
          · exact Or.inl (h1e' ▸ h2')
          · rw [Nat.compare_eq_eq] at h2e'
            refine Or.inr ⟨by rw [h1e', h2e', Nat.compare_eq_eq], ?_⟩
            exact natCompare_lt_trans h1r h2r

theorem isNewerStatement_irrefl (a : SCPStatement) :
    isNewerStatement a a = false := by
  by_contra h
  have h' : isNewerStatement a a = true := by
    cases hx : isNewerStatement a a
    · exact absurd hx h
    · rfl
  rw [isNewerStatement_iff_lt, cmpStatement_refl] at h'
  cases h'

theorem isNewerStatement_trans {a b c : SCPStatement}
    (h1 : isNewerStatement a b = true) (h2 : isNewerStatement b c = true) :
    isNewerStatement a c = true := by
  rw [isNewerStatement_iff_lt] at h1 h2 ⊢
  exact cmpStatement_lt_trans h1 h2

theorem isNewerStatement_ne {a b : SCPStatement}
    (h : isNewerStatement a b = true) : a ≠ b := by
  intro he
  subst he
  rw [isNewerStatement_irrefl a] at h
  cases h

/-! ## Execution properties: monotonicity of `p`, ghost bookkeeping, and
the emission invariant -/

/-- The accepted-prepared ballot `p` of `t` is at least that of `s`
(`none` below everything). -/
def pLe (s t : BPState) : Prop :=
  match s.prepared, t.prepared with
  | none, _ => True
  | some _, none => False
  | some p, some p' => compareBallots p p' ≠ .gt

theorem pLe_refl (s : BPState) : pLe s s := by
  unfold pLe
  cases h : s.prepared with
  | none => trivial
  | some p => simp [compareBallots_refl]

theorem pLe_of_prepared_eq {s t : BPState} (h : t.prepared = s.prepared) :
    pLe s t := by
  unfold pLe
  rw [h]
  cases s.prepared with
  | none => trivial
  | some p => simp [compareBallots_refl]

theorem pLe_trans {s t u : BPState} (h1 : pLe s t) (h2 : pLe t u) :
    pLe s u := by
  unfold pLe at *
  cases hs : s.prepared with
  | none => trivial
  | some p =>
    rw [hs] at h1
    cases ht : t.prepared with
    | none => rw [ht] at h1; exact absurd h1 id
    | some q =>
      rw [ht] at h1 h2
      cases hu : u.prepared with
      | none => rw [hu] at h2; exact absurd h2 id
      | some r =>
        rw [hu] at h2
        exact compareBallots_le_trans h1 h2

/-- Every logged emission happened at recursion depth 0 with the slot
fully validated. -/
def goodEventsB : List EmitEvent → Bool
  | [] => true
  | e :: r => (e.level == 0) && e.fullyValidated && goodEventsB r

/-- Adjacent logged emissions carry different envelopes (the newest is at
the head). -/
def adjOKB : List EmitEvent → Bool
  | [] => true
  | [_] => true
  | e1 :: e2 :: r => decide (e1.env ≠ e2.env) && adjOKB (e2 :: r)

/-- Emission invariant: wrapper ids stay below the allocation counter,
the staged envelope (`mLastEnvelope`) is never older than the last
broadcast one (`mLastEnvelopeEmit`), every logged emission happened at
depth 0 on a fully-validated slot, adjacent emissions differ, and the
newest emission matches the last broadcast wrapper. -/
def JB (s : BPState) : Bool :=
  (match s.lastEnvelope with
   | some w => decide (w.id < s.nextWrapperId)
   | none => true) &&
  (match s.lastEnvelopeEmit, s.lastEnvelope with
   | some w, some w' =>
     decide (w.id < s.nextWrapperId) &&
       (decide (w.id = w'.id ∧ w.env = w'.env) ||
        isNewerStatement w.env.statement w'.env.statement)
   | some _, none => false
   | none, _ => true) &&
  goodEventsB s.emits && adjOKB s.emits &&
  (match s.emits, s.lastEnvelopeEmit with
   | [], _ => true
   | e :: _, some w => decide (e.env = w.env)
   | _ :: _, none => false)

/-- The emission invariant as a proposition. -/
def J (s : BPState) : Prop := JB s = true

instance (s : BPState) : Decidable (J s) :=
  inferInstanceAs (Decidable (JB s = true))

/-- Properties of a normally returning operation: invariants preserved,
`p` non-decreasing, recursion depth restored, ghost depth bound kept. -/
def okProps (s t : BPState) : Prop :=
  pLe s t ∧ t.msgLevel = s.msgLevel ∧
    t.maxLevel ≤ max s.maxLevel (MAX_ADVANCE_SLOT_RECURSION - 1)

/-- Properties of any result state (normal or thrown): no emission below
depth 1, the emission invariant preserved, allocation counter
monotone. -/
def resProps (s t : BPState) : Prop :=
  (1 ≤ s.msgLevel → t.emits = s.emits) ∧ (J s → J t) ∧
    s.nextWrapperId ≤ t.nextWrapperId

/-- The combined transition property of one core operation. -/
def StepOK (s : BPState) : MRes α → Prop
  | .ok t _ => okProps s t ∧ resProps s t
  | .err t _ => resProps s t

theorem resProps_refl (s : BPState) : resProps s s :=
  ⟨fun _ => rfl, fun h => h, Nat.le_refl _⟩

theorem okProps_refl (s : BPState) : okProps s s :=
  ⟨pLe_refl s, rfl, Nat.le_max_left _ _⟩

theorem StepOK_ok_self (s : BPState) (x : α) : StepOK s (.ok s x) :=
  ⟨okProps_refl s, resProps_refl s⟩

theorem StepOK_err_self (s : BPState) (e : Err) :
    StepOK s (MRes.err (α := α) s e) :=
  resProps_refl s

theorem StepOK_trans {s t : BPState} {a : α} {m : MRes β}
    (h1 : StepOK s (.ok t a)) (h2 : StepOK t m) : StepOK s m := by
  obtain ⟨⟨hp1, hl1, hx1⟩, he1, hj1, hn1⟩ := h1
  cases m with
  | ok u b =>
    obtain ⟨⟨hp2, hl2, hx2⟩, he2, hj2, hn2⟩ := h2
    refine ⟨⟨pLe_trans hp1 hp2, by omega, by omega⟩, ?_, ?_, by omega⟩
    · intro h
      rw [he2 (by omega), he1 h]
    · intro h
      exact hj2 (hj1 h)
  | err u e =>
    obtain ⟨he2, hj2, hn2⟩ := h2
    refine ⟨?_, ?_, by omega⟩
    · intro h
      rw [he2 (by omega), he1 h]
    · intro h
      exact hj2 (hj1 h)

/-- A state change that touches neither `p`, the depth counters, the
emission bookkeeping, nor the wrapper allocator. -/
def Harmless (s t : BPState) : Prop :=
  t.prepared = s.prepared ∧ t.msgLevel = s.msgLevel ∧
  t.maxLevel = s.maxLevel ∧ t.emits = s.emits ∧
  t.lastEnvelope = s.lastEnvelope ∧ t.lastEnvelopeEmit = s.lastEnvelopeEmit ∧
  t.nextWrapperId = s.nextWrapperId

theorem Harmless_refl (s : BPState) : Harmless s s :=
  ⟨rfl, rfl, rfl, rfl, rfl, rfl, rfl⟩

theorem Harmless_trans {s t u : BPState} (h1 : Harmless s t)
    (h2 : Harmless t u) : Harmless s u := by
  obtain ⟨a1, a2, a3, a4, a5, a6, a7⟩ := h1
  obtain ⟨b1, b2, b3, b4, b5, b6, b7⟩ := h2
  exact ⟨by rw [b1, a1], by rw [b2, a2], by rw [b3, a3], by rw [b4, a4],
    by rw [b5, a5], by rw [b6, a6], by rw [b7, a7]⟩

theorem J_congr {s t : BPState} (h1 : t.lastEnvelope = s.lastEnvelope)
    (h2 : t.lastEnvelopeEmit = s.lastEnvelopeEmit)
    (h3 : t.nextWrapperId = s.nextWrapperId) (h4 : t.emits = s.emits)
    (hJ : J s) : J t := by
  unfold J JB at *
  rw [h1, h2, h3, h4]
  exact hJ

theorem Inv_congr {s t : BPState} (h1 : t.phase = s.phase)
    (h2 : t.currentBallot = s.currentBallot) (h3 : t.prepared = s.prepared)
    (h4 : t.preparedPrime = s.preparedPrime) (h5 : t.highBallot = s.highBallot)
    (h6 : t.commit = s.commit) (hI : Inv s) : Inv t := by
  unfold Inv checkInvariantsB at *
  rw [h1, h2, h3, h4, h5, h6]
  exact hI

theorem StepOK_ok_of_harmless {s t : BPState} (h : Harmless s t) (x : α) :
    StepOK s (.ok t x) := by
  obtain ⟨h1, h2, h3, h4, h5, h6, h7⟩ := h
  refine ⟨⟨pLe_of_prepared_eq h1, h2, by omega⟩, fun _ => h4,
    fun hJ => J_congr h5 h6 h7 h4 hJ, by omega⟩

/-! ## Specifications of the non-recursive helpers -/

theorem recordEnvelope_harmless (w : EnvWrapper) (s : BPState) :
    Harmless s (recordEnvelope w s) :=
  ⟨rfl, rfl, rfl, rfl, rfl, rfl, rfl⟩

theorem recordEnvelope_inv {w : EnvWrapper} {s : BPState} (h : Inv s) :
    Inv (recordEnvelope w s) :=
  Inv_congr rfl rfl rfl rfl rfl rfl h

theorem bumpToBallot_harmless (b : SCPBallot) (c : Bool) (s : BPState) :
    Harmless s ((bumpToBallot b c s).state) := by
  rcases h : bumpToBallot b c s with ⟨t, u⟩ | ⟨t, e⟩ <;>
    simp only [MRes.state] <;>
    simp only [bumpToBallot] at h <;>
    (repeat' split at h) <;>
    (cases h) <;>
    exact ⟨rfl, rfl, rfl, rfl, rfl, rfl, rfl⟩

theorem runCheckInvariants_state (s : BPState) :
    (runCheckInvariants s).state = s := by
  simp only [runCheckInvariants]
  split <;> rfl

theorem runCheckInvariants_ok {s t : BPState} {u : Unit}
    (h : runCheckInvariants s = .ok t u) : t = s ∧ Inv t := by
  simp only [runCheckInvariants] at h
  split at h
  · cases h
    exact ⟨rfl, by assumption⟩
  · cases h

theorem runCheckInvariants_harmless (s : BPState) :
    Harmless s ((runCheckInvariants s).state) := by
  rw [runCheckInvariants_state]
  exact Harmless_refl s

theorem harmless_of_eq_ok {f : MRes α} {s t : BPState} {x : α}
    (hf : Harmless s f.state) (h : f = .ok t x) : Harmless s t := by
  rw [h] at hf
  exact hf

theorem harmless_of_eq_err {f : MRes α} {s t : BPState} {e : Err}
    (hf : Harmless s f.state) (h : f = .err t e) : Harmless s t := by
  rw [h] at hf
  exact hf

theorem updateCurrentValue_harmless (b : SCPBallot) (s : BPState) :
    Harmless s ((updateCurrentValue b s).state) := by
  have hbb := bumpToBallot_harmless b true s
  have hbc : ∀ t1 : BPState,
      Harmless t1 ((match runCheckInvariants t1 with
        | MRes.err s e => MRes.err s e
        | MRes.ok s _ => MRes.ok s true) : MRes Bool).state := by
    intro t1
    rcases h2 : runCheckInvariants t1 with ⟨t2, u2⟩ | ⟨t2, e2⟩ <;>
      simp only [MRes.state]
    · exact harmless_of_eq_ok (runCheckInvariants_harmless t1) h2
    · exact harmless_of_eq_err (runCheckInvariants_harmless t1) h2
  have hmain : Harmless s ((match bumpToBallot b true s with
      | MRes.err s e => MRes.err s e
      | MRes.ok s _ =>
        match runCheckInvariants s with
        | MRes.err s e => MRes.err s e
        | MRes.ok s _ => MRes.ok s true) : MRes Bool).state := by
    rcases h1 : bumpToBallot b true s with ⟨t1, u1⟩ | ⟨t1, e1⟩ <;> simp only
    · exact Harmless_trans (harmless_of_eq_ok hbb h1) (hbc t1)
    · simp only [MRes.state]
      exact harmless_of_eq_err hbb h1
  have hchk : Harmless s ((match runCheckInvariants s with
      | MRes.err s e => MRes.err s e
      | MRes.ok s _ => MRes.ok s false) : MRes Bool).state := by
    rcases h2 : runCheckInvariants s with ⟨t2, u2⟩ | ⟨t2, e2⟩ <;>
      simp only [MRes.state]
    · exact harmless_of_eq_ok (runCheckInvariants_harmless s) h2
    · exact harmless_of_eq_err (runCheckInvariants_harmless s) h2
  simp only [updateCurrentValue]
  split
  · exact Harmless_refl s
  · split
    · exact hmain
    · split
      · exact Harmless_refl s
      · split
        · exact Harmless_refl s
        · split
          · exact hmain
          · exact hchk

theorem updateCurrentValue_inv {b : SCPBallot} {s t : BPState} {u : Bool}
    (hI : Inv s) (h : updateCurrentValue b s = .ok t u) : Inv t := by
  have hmain : ∀ v : Bool, ((match bumpToBallot b true s with
      | MRes.err s e => MRes.err s e
      | MRes.ok s _ =>
        match runCheckInvariants s with
        | MRes.err s e => MRes.err s e
        | MRes.ok s _ => MRes.ok s v) : MRes Bool) = .ok t u → Inv t := by
    intro v hh
    rcases h1 : bumpToBallot b true s with ⟨t1, u1⟩ | ⟨t1, e1⟩ <;>
      rw [h1] at hh <;> simp only at hh
    · rcases h2 : runCheckInvariants t1 with ⟨t2, u2⟩ | ⟨t2, e2⟩ <;>
        rw [h2] at hh <;> simp only at hh
      · cases hh
        exact (runCheckInvariants_ok h2).2
      · exact MRes.noConfusion hh
    · exact MRes.noConfusion hh
  have hchk : ∀ v : Bool, ((match runCheckInvariants s with
      | MRes.err s e => MRes.err s e
      | MRes.ok s _ => MRes.ok s v) : MRes Bool) = .ok t u → Inv t := by
    intro v hh
    rcases h2 : runCheckInvariants s with ⟨t2, u2⟩ | ⟨t2, e2⟩ <;>
      rw [h2] at hh <;> simp only at hh
    · cases hh
      exact (runCheckInvariants_ok h2).2
    · exact MRes.noConfusion hh
  simp only [updateCurrentValue] at h
  split at h
  · cases h
    exact hI
  · split at h
    · exact hmain true h
    · split at h
      · exact MRes.noConfusion h
      · split at h
        · cases h
          exact hI
        · split at h
          · exact hmain true h
          · exact hchk false h

theorem updateCurrentIfNeeded_harmless (b : SCPBallot) (s : BPState) :
    Harmless s ((updateCurrentIfNeeded b s).state) := by
  simp only [updateCurrentIfNeeded]
  split
  · rcases h1 : bumpToBallot b true s with ⟨t, u⟩ | ⟨t, e⟩ <;>
      · have hb := bumpToBallot_harmless b true s
        rw [h1] at hb
        exact hb
  · exact Harmless_refl s

theorem updateCurrentIfNeeded_false {b : SCPBallot} {s t : BPState}
    (h : updateCurrentIfNeeded b s = .ok t false) : t = s := by
  simp only [updateCurrentIfNeeded] at h
  split at h
  · rcases h1 : bumpToBallot b true s with ⟨t1, u1⟩ | ⟨t1, e1⟩ <;> rw [h1] at h <;>
      cases h
  · cases h
    rfl

theorem setPrepared_frame (b : SCPBallot) (s : BPState) :
    (setPrepared b s).1.msgLevel = s.msgLevel ∧
    (setPrepared b s).1.maxLevel = s.maxLevel ∧
    (setPrepared b s).1.emits = s.emits ∧
    (setPrepared b s).1.lastEnvelope = s.lastEnvelope ∧
    (setPrepared b s).1.lastEnvelopeEmit = s.lastEnvelopeEmit ∧
    (setPrepared b s).1.nextWrapperId = s.nextWrapperId ∧
    pLe s (setPrepared b s).1 := by
  cases hp : s.prepared with
  | none =>
    refine ⟨?_, ?_, ?_, ?_, ?_, ?_, ?_⟩ <;> simp [setPrepared, hp, pLe]
  | some p =>
    cases hc : compareBallots p b with
    | lt =>
      refine ⟨?_, ?_, ?_, ?_, ?_, ?_, ?_⟩ <;>
        · simp only [setPrepared, hp, hc]
          split <;> simp [pLe, hp, hc]
    | eq =>
      refine ⟨?_, ?_, ?_, ?_, ?_, ?_, ?_⟩ <;>
        simp [setPrepared, hp, hc, pLe, compareBallots_refl]
    | gt =>
      refine ⟨?_, ?_, ?_, ?_, ?_, ?_, ?_⟩ <;>
        · simp only [setPrepared, hp, hc]
          split <;> simp [pLe, hp, compareBallots_refl]

theorem setPrepared_false {b : SCPBallot} {s : BPState}
    (h : (setPrepared b s).2 = false) : (setPrepared b s).1 = s := by
  cases hp : s.prepared with
  | none => simp [setPrepared, hp] at h
  | some p =>
    cases hc : compareBallots p b with
    | lt =>
      simp only [setPrepared, hp, hc] at h
      cases h
    | eq => simp [setPrepared, hp, hc]
    | gt =>
      simp only [setPrepared, hp, hc] at h ⊢
      split at h <;> simp_all

theorem createStatement_state (cfg : BPConfig) (s : BPState) :
    (createStatement cfg s).state = s := by
  simp only [createStatement]
  repeat' split
  all_goals rfl

theorem createStatement_ok_inv {cfg : BPConfig} {s t : BPState}
    {st : SCPStatement} (h : createStatement cfg s = .ok t st) :
    t = s ∧ Inv s := by
  simp only [createStatement] at h
  split at h
  · cases h
  · constructor
    · repeat' split at h
      all_goals first | (cases h; rfl) | cases h
    · rename_i hb
      unfold Inv
      cases hx : checkInvariantsB s
      · rw [hx] at hb
        exact absurd rfl hb
      · rfl

theorem checkHeardFromQuorum_harmless (cfg : BPConfig) (s : BPState) :
    Harmless s (checkHeardFromQuorum cfg s) := by
  simp only [checkHeardFromQuorum]
  repeat' split
  all_goals exact ⟨rfl, rfl, rfl, rfl, rfl, rfl, rfl⟩

theorem checkHeardFromQuorum_inv {cfg : BPConfig} {s : BPState} (h : Inv s) :
    Inv (checkHeardFromQuorum cfg s) := by
  simp only [checkHeardFromQuorum]
  repeat' split
  all_goals exact Inv_congr rfl rfl rfl rfl rfl rfl h

theorem sendLatestEnvelope_frame (s : BPState) :
    (sendLatestEnvelope s).phase = s.phase ∧
    (sendLatestEnvelope s).currentBallot = s.currentBallot ∧
    (sendLatestEnvelope s).prepared = s.prepared ∧
    (sendLatestEnvelope s).preparedPrime = s.preparedPrime ∧
    (sendLatestEnvelope s).highBallot = s.highBallot ∧
    (sendLatestEnvelope s).commit = s.commit ∧
    (sendLatestEnvelope s).msgLevel = s.msgLevel ∧
    (sendLatestEnvelope s).maxLevel = s.maxLevel ∧
    (sendLatestEnvelope s).lastEnvelope = s.lastEnvelope ∧
    (sendLatestEnvelope s).nextWrapperId = s.nextWrapperId ∧
    (sendLatestEnvelope s).latestEnvelopes = s.latestEnvelopes := by
  simp only [sendLatestEnvelope]
  repeat' split
  all_goals simp

theorem sendLatestEnvelope_high (s : BPState) (h : 1 ≤ s.msgLevel) :
    sendLatestEnvelope s = s := by
  simp only [sendLatestEnvelope]
  have hz : ¬ s.msgLevel = 0 := by omega
  repeat' split
  all_goals simp_all

theorem sendLatestEnvelope_emits (s : BPState) :
    (sendLatestEnvelope s).emits = s.emits ∨
      ∃ ev, (sendLatestEnvelope s).emits = ev :: s.emits := by
  simp only [sendLatestEnvelope]
  repeat' split
  all_goals simp

theorem sendLatestEnvelope_J {s : BPState} (hJ : J s) :
    J (sendLatestEnvelope s) := by
  rcases hle : s.lastEnvelope with _ | w
  · simp only [sendLatestEnvelope, hle]
    exact hJ
  · simp only [sendLatestEnvelope, hle]
    split
    · rename_i hguard
      rw [Bool.and_eq_true, decide_eq_true_iff] at hguard
      obtain ⟨hlvl, hfv⟩ := hguard
      split
      · rename_i hdo
        -- the emitting branch
        unfold J JB at hJ ⊢
        simp only [Bool.and_eq_true] at hJ ⊢
        obtain ⟨⟨⟨⟨hc1, hc2⟩, hc3⟩, hc4⟩, hc5⟩ := hJ
        rw [hle] at hc1 hc2
        have hw1 : w.id < s.nextWrapperId := by simpa using hc1
        refine ⟨⟨⟨⟨?_, ?_⟩, ?_⟩, ?_⟩, ?_⟩
        · simp [hle, hw1]
        · simp [hle, hw1]
        · simp [goodEventsB, hlvl, hfv, hc3]
        · rcases hem : s.emits with _ | ⟨e0, rest⟩
          · simp [adjOKB]
          · simp only [adjOKB, Bool.and_eq_true, decide_eq_true_iff]
            constructor
            · -- the new event differs from the previous newest one
              rcases hlee : s.lastEnvelopeEmit with _ | we
              · rw [hem, hlee] at hc5
                simp at hc5
              · rw [hem, hlee] at hc5
                simp only [decide_eq_true_iff] at hc5
                rw [hlee] at hc2
                simp only [Bool.and_eq_true, Bool.or_eq_true,
                  decide_eq_true_iff] at hc2
                rcases hc2.2 with ⟨hid, _⟩ | hnew
                · rw [hlee] at hdo
                  simp only [decide_eq_true_iff] at hdo
                  exact absurd hid (by simpa using hdo)
                · have hne := isNewerStatement_ne hnew
                  intro hcon
                  rw [hc5] at hcon
                  exact hne (by rw [hcon])
            · rw [hem] at hc4
              exact hc4
        · simp [hc5]
      · exact hJ
    · exact hJ

theorem StepOK_sendLatest (s : BPState) (x : α) :
    StepOK s (.ok (sendLatestEnvelope s) x) := by
  obtain ⟨f1, f2, f3, f4, f5, f6, f7, f8, f9, f10, f11⟩ :=
    sendLatestEnvelope_frame s
  refine ⟨⟨pLe_of_prepared_eq f3, f7, by omega⟩, ?_, ?_, by omega⟩
  · intro h
    rw [sendLatestEnvelope_high s h]
  · exact sendLatestEnvelope_J

theorem sendLatestEnvelope_inv {s : BPState} (h : Inv s) :
    Inv (sendLatestEnvelope s) := by
  obtain ⟨f1, f2, f3, f4, f5, f6, _⟩ := sendLatestEnvelope_frame s
  exact Inv_congr f1 f2 f3 f4 f5 f6 h

theorem J_mono {s t : BPState} (h1 : t.lastEnvelope = s.lastEnvelope)
    (h2 : t.lastEnvelopeEmit = s.lastEnvelopeEmit)
    (h3 : s.nextWrapperId ≤ t.nextWrapperId) (h4 : t.emits = s.emits)
    (hJ : J s) : J t := by
  unfold J JB at *
  rw [h1, h2, h4]
  simp only [Bool.and_eq_true] at hJ ⊢
  obtain ⟨⟨⟨⟨hc1, hc2⟩, hc3⟩, hc4⟩, hc5⟩ := hJ
  refine ⟨⟨⟨⟨?_, ?_⟩, hc3⟩, hc4⟩, hc5⟩
  · cases hle : s.lastEnvelope with
    | none => simp
    | some w =>
      rw [hle] at hc1
      simp only [decide_eq_true_iff] at hc1 ⊢
      omega
  · cases hlee : s.lastEnvelopeEmit with
    | none => simp
    | some w =>
      cases hle : s.lastEnvelope with
      | none =>
        rw [hlee, hle] at hc2
        exact absurd hc2 (by simp)
      | some w2 =>
        rw [hlee, hle] at hc2
        simp only [Bool.and_eq_true, decide_eq_true_iff] at hc2 ⊢
        exact ⟨by omega, hc2.2⟩

theorem StepOK_ok_of_frame {s t : BPState} (hp : pLe s t)
    (h2 : t.msgLevel = s.msgLevel) (h3 : t.maxLevel = s.maxLevel)
    (h4 : t.emits = s.emits) (h5 : t.lastEnvelope = s.lastEnvelope)
    (h6 : t.lastEnvelopeEmit = s.lastEnvelopeEmit)
    (h7 : t.nextWrapperId = s.nextWrapperId) (x : α) : StepOK s (.ok t x) :=
  ⟨⟨hp, h2, by omega⟩, fun _ => h4, fun hJ => J_congr h5 h6 h7 h4 hJ,
    by omega⟩

theorem StepOK_err_of_frame {s t : BPState} (h4 : t.emits = s.emits)
    (h5 : t.lastEnvelope = s.lastEnvelope)
    (h6 : t.lastEnvelopeEmit = s.lastEnvelopeEmit)
    (h7 : t.nextWrapperId = s.nextWrapperId) (e : Err) :
    StepOK s (MRes.err (α := α) t e) :=
  ⟨fun _ => h4, fun hJ => J_congr h5 h6 h7 h4 hJ, by omega⟩

/-! ## The master induction over the recursive core -/

/-- The inductive bundle: every operation of the core satisfies the
transition property `StepOK`, preserves the global invariants on normal
return (`emitCurrentStateStatement` even unconditionally, thanks to its
leading `checkInvariants`), and `processEnvelope`/`advanceSlot` log at
most one emission when entered at depth 0. -/
structure RecsOK (r : Recs) : Prop where
  pe : ∀ w self s, StepOK s (r.processEnvelope w self s)
  peInv : ∀ w self s t x, Inv s → r.processEnvelope w self s = .ok t x → Inv t
  peCount : ∀ w self s,
    (r.processEnvelope w self s).state.emits = s.emits ∨
      ∃ ev, (r.processEnvelope w self s).state.emits = ev :: s.emits
  adv : ∀ hint s, StepOK s (r.advanceSlot hint s)
  advInv : ∀ hint s t x, Inv s → r.advanceSlot hint s = .ok t x → Inv t
  advCount : ∀ hint s,
    (r.advanceSlot hint s).state.emits = s.emits ∨
      ∃ ev, (r.advanceSlot hint s).state.emits = ev :: s.emits
  bl : ∀ s, StepOK s (r.bumpLoop s)
  blInv : ∀ s t x, Inv s → r.bumpLoop s = .ok t x → Inv t
  ab : ∀ s, StepOK s (r.attemptBump s)
  abInv : ∀ s t x, Inv s → r.attemptBump s = .ok t x → Inv t
  aband : ∀ n s, StepOK s (r.abandonBallot n s)
  abandInv : ∀ n s t x, Inv s → r.abandonBallot n s = .ok t x → Inv t
  bsf : ∀ v f s, StepOK s (r.bumpStateForce v f s)
  bsfInv : ∀ v f s t x, Inv s → r.bumpStateForce v f s = .ok t x → Inv t
  bsn : ∀ v n s, StepOK s (r.bumpStateN v n s)
  bsnInv : ∀ v n s t x, Inv s → r.bumpStateN v n s = .ok t x → Inv t
  emit : ∀ s, StepOK s (r.emitCurrentStateStatement s)
  emitInv : ∀ s t x, r.emitCurrentStateStatement s = .ok t x → Inv t
  aap : ∀ hint s, StepOK s (r.attemptAcceptPrepared hint s)
  aapInv : ∀ hint s t x, Inv s → r.attemptAcceptPrepared hint s = .ok t x →
    Inv t
  sap : ∀ b s, StepOK s (r.setAcceptPrepared b s)
  sapInv : ∀ b s t x, Inv s → r.setAcceptPrepared b s = .ok t x → Inv t
  acp : ∀ hint s, StepOK s (r.attemptConfirmPrepared hint s)
  acpInv : ∀ hint s t x, Inv s → r.attemptConfirmPrepared hint s = .ok t x →
    Inv t
  scp : ∀ c h s, StepOK s (r.setConfirmPrepared c h s)
  scpInv : ∀ c h s t x, Inv s → r.setConfirmPrepared c h s = .ok t x → Inv t
  aac : ∀ hint s, StepOK s (r.attemptAcceptCommit hint s)
  aacInv : ∀ hint s t x, Inv s → r.attemptAcceptCommit hint s = .ok t x →
    Inv t
  sac : ∀ c h s, StepOK s (r.setAcceptCommit c h s)
  sacInv : ∀ c h s t x, Inv s → r.setAcceptCommit c h s = .ok t x → Inv t
  acc : ∀ hint s, StepOK s (r.attemptConfirmCommit hint s)
  accInv : ∀ hint s t x, Inv s → r.attemptConfirmCommit hint s = .ok t x →
    Inv t
  scc : ∀ c h s, StepOK s (r.setConfirmCommit c h s)
  sccInv : ∀ c h s t x, Inv s → r.setConfirmCommit c h s = .ok t x → Inv t

theorem recsOK_base : RecsOK outOfFuelRecs := by
  constructor
  all_goals intros
  all_goals first
    | exact StepOK_err_self _ _
    | (rename_i h; exact MRes.noConfusion h)
    | (left; rfl)

theorem bumpLoopB_ok (cfg : BPConfig) (r : Recs) (ih : RecsOK r)
    (s : BPState) : StepOK s (bumpLoopB cfg r s) := by
  unfold bumpLoopB
  rcases h1 : r.attemptBump s with ⟨t1, b1⟩ | ⟨t1, e1⟩ <;> simp only
  · have H1 : StepOK s (.ok t1 b1) := h1 ▸ ih.ab s
    split
    · rcases h2 : r.bumpLoop t1 with ⟨t2, b2⟩ | ⟨t2, e2⟩ <;> simp only
      · exact StepOK_trans H1
          (StepOK_trans (h2 ▸ ih.bl t1) (StepOK_ok_self t2 true))
      · exact StepOK_trans H1 (h2 ▸ ih.bl t1)
    · exact H1
  · exact h1 ▸ ih.ab s

theorem bumpLoopB_inv (cfg : BPConfig) (r : Recs) (ih : RecsOK r)
    (s t : BPState) (x : Bool) (hI : Inv s) (h : bumpLoopB cfg r s = .ok t x) :
    Inv t := by
  unfold bumpLoopB at h
  rcases h1 : r.attemptBump s with ⟨t1, b1⟩ | ⟨t1, e1⟩ <;>
    rw [h1] at h <;> simp only at h
  · have hI1 : Inv t1 := ih.abInv s t1 b1 hI h1
    split at h
    · rcases h2 : r.bumpLoop t1 with ⟨t2, b2⟩ | ⟨t2, e2⟩ <;>
        rw [h2] at h <;> simp only at h
      · cases h
        exact ih.blInv _ _ _ hI1 h2
      · exact MRes.noConfusion h
    · cases h
      exact hI1
  · exact MRes.noConfusion h

theorem attemptBumpB_ok (cfg : BPConfig) (r : Recs) (ih : RecsOK r)
    (s : BPState) : StepOK s (attemptBumpB cfg r s) := by
  unfold attemptBumpB
  repeat' first | split | simp only
  all_goals first
    | exact StepOK_ok_self _ _
    | exact ih.aband _ _

theorem attemptBumpB_inv (cfg : BPConfig) (r : Recs) (ih : RecsOK r)
    (s t : BPState) (x : Bool) (hI : Inv s)
    (h : attemptBumpB cfg r s = .ok t x) : Inv t := by
  unfold attemptBumpB at h
  repeat' first | split at h | simp only at h
  all_goals first
    | (cases h; exact hI)
    | exact ih.abandInv _ _ _ _ hI h

theorem abandonBallotB_ok (cfg : BPConfig) (r : Recs) (ih : RecsOK r)
    (n : Nat) (s : BPState) : StepOK s (abandonBallotB cfg r n s) := by
  unfold abandonBallotB
  repeat' first | split | simp only
  all_goals first
    | exact StepOK_ok_self _ _
    | exact ih.bsf _ _ _
    | exact ih.bsn _ _ _

theorem abandonBallotB_inv (cfg : BPConfig) (r : Recs) (ih : RecsOK r)
    (n : Nat) (s t : BPState) (x : Bool) (hI : Inv s)
    (h : abandonBallotB cfg r n s = .ok t x) : Inv t := by
  unfold abandonBallotB at h
  repeat' first | split at h | simp only at h
  all_goals first
    | (cases h; exact hI)
    | exact ih.bsfInv _ _ _ _ _ hI h
    | exact ih.bsnInv _ _ _ _ _ hI h

theorem bumpStateForceB_ok (cfg : BPConfig) (r : Recs) (ih : RecsOK r)
    (value : Value) (force : Bool) (s : BPState) :
    StepOK s (bumpStateForceB cfg r value force s) := by
  unfold bumpStateForceB
  split
  · exact StepOK_ok_self _ _
  · exact ih.bsn _ _ _

theorem bumpStateForceB_inv (cfg : BPConfig) (r : Recs) (ih : RecsOK r)
    (value : Value) (force : Bool) (s t : BPState) (x : Bool) (hI : Inv s)
    (h : bumpStateForceB cfg r value force s = .ok t x) : Inv t := by
  unfold bumpStateForceB at h
  split at h
  · cases h
    exact hI
  · exact ih.bsnInv _ _ _ _ _ hI h

theorem StepOK_err_of_harmless {s t : BPState} (h : Harmless s t) (e : Err) :
    StepOK s (MRes.err (α := α) t e) := by
  obtain ⟨h1, h2, h3, h4, h5, h6, h7⟩ := h
  exact StepOK_err_of_frame h4 h5 h6 h7 e

theorem bumpStateNB_ok (cfg : BPConfig) (r : Recs) (ih : RecsOK r)
    (value : Value) (n : Nat) (s : BPState) :
    StepOK s (bumpStateNB cfg r value n s) := by
  unfold bumpStateNB
  split
  · exact StepOK_ok_self _ _
  · simp only
    split
    · rename_i t1 e1 h1
      exact StepOK_err_of_harmless
        (harmless_of_eq_err (updateCurrentValue_harmless _ _) h1) e1
    · rename_i t1 u1 h1
      have H1 : StepOK s (MRes.ok t1 u1) :=
        StepOK_ok_of_harmless
          (harmless_of_eq_ok (updateCurrentValue_harmless _ _) h1) u1
      split
      · rcases h2 : r.emitCurrentStateStatement t1 with ⟨t2, u2⟩ | ⟨t2, e2⟩ <;>
          simp only <;>
          have H2 := ih.emit t1 <;> rw [h2] at H2
        · exact StepOK_trans H1 (StepOK_trans H2
            (StepOK_ok_of_harmless (checkHeardFromQuorum_harmless cfg t2) true))
        · exact StepOK_trans H1 H2
      · exact H1

theorem bumpStateNB_inv (cfg : BPConfig) (r : Recs) (ih : RecsOK r)
    (value : Value) (n : Nat) (s t : BPState) (x : Bool) (hI : Inv s)
    (h : bumpStateNB cfg r value n s = .ok t x) : Inv t := by
  unfold bumpStateNB at h
  split at h
  · cases h
    exact hI
  · simp only at h
    split at h
    · exact MRes.noConfusion h
    · rename_i t1 u1 h1
      split at h
      · split at h
        · exact MRes.noConfusion h
        · rename_i t2 u2 h2
          cases h
          exact checkHeardFromQuorum_inv (ih.emitInv _ _ _ h2)
      · cases h
        exact updateCurrentValue_inv hI h1

theorem attemptAcceptPreparedB_ok (cfg : BPConfig) (r : Recs)
    (ih : RecsOK r) (hint : SCPStatement) (s : BPState) :
    StepOK s (attemptAcceptPreparedB cfg r hint s) := by
  unfold attemptAcceptPreparedB
  repeat' first | split | simp only
  all_goals first
    | exact StepOK_ok_self _ _
    | exact StepOK_err_self _ _
    | exact ih.sap _ _

theorem attemptAcceptPreparedB_inv (cfg : BPConfig) (r : Recs)
    (ih : RecsOK r) (hint : SCPStatement) (s t : BPState) (x : Bool)
    (hI : Inv s) (h : attemptAcceptPreparedB cfg r hint s = .ok t x) :
    Inv t := by
  unfold attemptAcceptPreparedB at h
  repeat' first | split at h | simp only at h
  all_goals first
    | (cases h; exact hI)
    | exact MRes.noConfusion h
    | exact ih.sapInv _ _ _ _ hI h

theorem attemptConfirmPreparedB_ok (cfg : BPConfig) (r : Recs)
    (ih : RecsOK r) (hint : SCPStatement) (s : BPState) :
    StepOK s (attemptConfirmPreparedB cfg r hint s) := by
  unfold attemptConfirmPreparedB
  repeat' first | split | simp only
  all_goals first
    | exact StepOK_ok_self _ _
    | exact ih.scp _ _ _

theorem attemptConfirmPreparedB_inv (cfg : BPConfig) (r : Recs)
    (ih : RecsOK r) (hint : SCPStatement) (s t : BPState) (x : Bool)
    (hI : Inv s) (h : attemptConfirmPreparedB cfg r hint s = .ok t x) :
    Inv t := by
  unfold attemptConfirmPreparedB at h
  repeat' first | split at h | simp only at h
  all_goals first
    | (cases h; exact hI)
    | exact MRes.noConfusion h
    | exact ih.scpInv _ _ _ _ _ hI h

theorem attemptAcceptCommitB_ok (cfg : BPConfig) (r : Recs)
    (ih : RecsOK r) (hint : SCPStatement) (s : BPState) :
    StepOK s (attemptAcceptCommitB cfg r hint s) := by
  unfold attemptAcceptCommitB
  repeat' first | split | simp only
  all_goals first
    | exact StepOK_ok_self _ _
    | exact StepOK_err_self _ _
    | exact ih.sac _ _ _

theorem attemptAcceptCommitB_inv (cfg : BPConfig) (r : Recs)
    (ih : RecsOK r) (hint : SCPStatement) (s t : BPState) (x : Bool)
    (hI : Inv s) (h : attemptAcceptCommitB cfg r hint s = .ok t x) :
    Inv t := by
  unfold attemptAcceptCommitB at h
  repeat' first | split at h | simp only at h
  all_goals first
    | (cases h; exact hI)
    | exact MRes.noConfusion h
    | exact ih.sacInv _ _ _ _ _ hI h

theorem attemptConfirmCommitB_ok (cfg : BPConfig) (r : Recs)
    (ih : RecsOK r) (hint : SCPStatement) (s : BPState) :
    StepOK s (attemptConfirmCommitB cfg r hint s) := by
  unfold attemptConfirmCommitB
  repeat' first | split | simp only
  all_goals first
    | exact StepOK_ok_self _ _
    | exact ih.scc _ _ _

theorem attemptConfirmCommitB_inv (cfg : BPConfig) (r : Recs)
    (ih : RecsOK r) (hint : SCPStatement) (s t : BPState) (x : Bool)
    (hI : Inv s) (h : attemptConfirmCommitB cfg r hint s = .ok t x) :
    Inv t := by
  unfold attemptConfirmCommitB at h
  repeat' first | split at h | simp only at h
  all_goals first
    | (cases h; exact hI)
    | exact MRes.noConfusion h
    | exact ih.sccInv _ _ _ _ _ hI h

theorem setConfirmCommitB_ok (cfg : BPConfig) (r : Recs) (ih : RecsOK r)
    (c hb : SCPBallot) (s : BPState) :
    StepOK s (setConfirmCommitB cfg r c hb s) := by
  unfold setConfirmCommitB
  try simp only
  have hs1 : Harmless s { s with commit := some c, highBallot := some hb } :=
    ⟨rfl, rfl, rfl, rfl, rfl, rfl, rfl⟩
  split
  · rename_i t1 e1 h1
    exact StepOK_err_of_harmless (Harmless_trans hs1
      (harmless_of_eq_err (updateCurrentIfNeeded_harmless hb _) h1)) e1
  · rename_i t1 u1 h1
    have H1 : Harmless s { t1 with phase := SCPPhase.externalize } :=
      Harmless_trans (Harmless_trans hs1
        (harmless_of_eq_ok (updateCurrentIfNeeded_harmless hb _) h1))
        ⟨rfl, rfl, rfl, rfl, rfl, rfl, rfl⟩
    try simp only
    rcases h2 : r.emitCurrentStateStatement
        { t1 with phase := SCPPhase.externalize } with ⟨t2, u2⟩ | ⟨t2, e2⟩ <;>
      simp only <;>
      have H2 := ih.emit { t1 with phase := SCPPhase.externalize } <;>
      rw [h2] at H2
    · exact StepOK_trans (StepOK_ok_of_harmless H1 ())
        (StepOK_trans H2
          (StepOK_ok_of_harmless ⟨rfl, rfl, rfl, rfl, rfl, rfl, rfl⟩ true))
    · exact StepOK_trans (StepOK_ok_of_harmless H1 ()) H2

theorem setConfirmCommitB_inv (cfg : BPConfig) (r : Recs) (ih : RecsOK r)
    (c hb : SCPBallot) (s t : BPState) (x : Bool) (_hI : Inv s)
    (h : setConfirmCommitB cfg r c hb s = .ok t x) : Inv t := by
  unfold setConfirmCommitB at h
  try simp only at h
  split at h
  · exact MRes.noConfusion h
  · rename_i t1 u1 h1
    try simp only at h
    split at h
    · exact MRes.noConfusion h
    · rename_i t2 u2 h2
      cases h
      exact Inv_congr rfl rfl rfl rfl rfl rfl (ih.emitInv _ t2 u2 h2)

theorem setAcceptPreparedB_ok (cfg : BPConfig) (r : Recs) (ih : RecsOK r)
    (ballot : SCPBallot) (s : BPState) :
    StepOK s (setAcceptPreparedB cfg r ballot s) := by
  unfold setAcceptPreparedB
  simp only
  obtain ⟨f1, f2, f3, f4, f5, f6, fp⟩ := setPrepared_frame ballot s
  have H1 : StepOK s (MRes.ok (setPrepared ballot s).1 true) :=
    StepOK_ok_of_frame fp f1 f2 f3 f4 f5 f6 true
  split
  · split
    · exact StepOK_trans H1 (StepOK_err_self _ _)
    · have H2 : StepOK s
          (MRes.ok { (setPrepared ballot s).1 with commit := none } true) :=
        StepOK_trans H1
          (StepOK_ok_of_harmless ⟨rfl, rfl, rfl, rfl, rfl, rfl, rfl⟩ true)
      rcases h2 : r.emitCurrentStateStatement
          { (setPrepared ballot s).1 with commit := none }
          with ⟨t2, u2⟩ | ⟨t2, e2⟩ <;>
        simp only <;>
        have H3 := ih.emit { (setPrepared ballot s).1 with commit := none } <;>
        rw [h2] at H3
      · exact StepOK_trans H2 H3
      · exact StepOK_trans H2 H3
  · split
    · rcases h2 : r.emitCurrentStateStatement (setPrepared ballot s).1
          with ⟨t2, u2⟩ | ⟨t2, e2⟩ <;>
        simp only <;>
        have H3 := ih.emit (setPrepared ballot s).1 <;>
        rw [h2] at H3
      · exact StepOK_trans H1 H3
      · exact StepOK_trans H1 H3
    · exact StepOK_trans H1 (StepOK_ok_self _ _)

theorem setAcceptPreparedB_inv (cfg : BPConfig) (r : Recs) (ih : RecsOK r)
    (ballot : SCPBallot) (s t : BPState) (x : Bool) (hI : Inv s)
    (h : setAcceptPreparedB cfg r ballot s = .ok t x) : Inv t := by
  unfold setAcceptPreparedB at h
  simp only at h
  split at h
  · split at h
    · exact MRes.noConfusion h
    · split at h
      · exact MRes.noConfusion h
      · rename_i t2 u2 h2
        cases h
        exact ih.emitInv _ _ _ h2
  · split at h
    · split at h
      · exact MRes.noConfusion h
      · rename_i t2 u2 h2
        cases h
        exact ih.emitInv _ _ _ h2
    · rename_i hdw
      cases h
      rw [setPrepared_false (by simpa using hdw)]
      exact hI

theorem setConfirmPreparedB_ok (cfg : BPConfig) (r : Recs) (ih : RecsOK r)
    (newC newH : SCPBallot) (s : BPState) :
    StepOK s (setConfirmPreparedB cfg r newC newH s) := by
  unfold setConfirmPreparedB
  simp only
  split
  · rename_i u e h1
    have hu : Harmless s u := by
      repeat' first | split at h1 | simp only at h1
      all_goals first
        | (cases h1; exact ⟨rfl, rfl, rfl, rfl, rfl, rfl, rfl⟩)
        | exact MRes.noConfusion h1
    exact StepOK_err_of_harmless hu e
  · rename_i u dw h1
    have hu : Harmless s u := by
      repeat' first | split at h1 | simp only at h1
      all_goals first
        | (cases h1; exact ⟨rfl, rfl, rfl, rfl, rfl, rfl, rfl⟩)
        | exact MRes.noConfusion h1
    have H1 : StepOK s (MRes.ok u dw) := StepOK_ok_of_harmless hu dw
    split
    · rename_i u2 e2 h2
      exact StepOK_trans H1 (StepOK_err_of_harmless
        (harmless_of_eq_err (updateCurrentIfNeeded_harmless newH u) h2) e2)
    · rename_i u2 dw2 h2
      have H2 : StepOK s (MRes.ok u2 dw2) := StepOK_trans H1
        (StepOK_ok_of_harmless
          (harmless_of_eq_ok (updateCurrentIfNeeded_harmless newH u) h2) dw2)
      split
      · rcases h3 : r.emitCurrentStateStatement u2 with ⟨t3, u3⟩ | ⟨t3, e3⟩ <;>
          simp only <;>
          have H3 := ih.emit u2 <;>
          rw [h3] at H3
        · exact StepOK_trans H2 H3
        · exact StepOK_trans H2 H3
      · exact H2

theorem setConfirmPreparedB_inv (cfg : BPConfig) (r : Recs) (ih : RecsOK r)
    (newC newH : SCPBallot) (s t : BPState) (x : Bool) (hI : Inv s)
    (h : setConfirmPreparedB cfg r newC newH s = .ok t x) : Inv t := by
  unfold setConfirmPreparedB at h
  simp only at h
  split at h
  · exact MRes.noConfusion h
  · rename_i u dw h1
    split at h
    · exact MRes.noConfusion h
    · rename_i u2 dw2 h2
      split at h
      · split at h
        · exact MRes.noConfusion h
        · rename_i t3 u3 h3
          cases h
          exact ih.emitInv _ _ _ h3
      · rename_i hcond
        cases h
        simp only [Bool.or_eq_true, not_or, Bool.not_eq_true] at hcond
        obtain ⟨hdw2, hdw⟩ := hcond
        subst hdw2
        subst hdw
        obtain rfl := updateCurrentIfNeeded_false h2
        repeat' first | split at h1 | simp only at h1
        all_goals first
          | exact MRes.noConfusion h1
          | (cases h1; exact Inv_congr rfl rfl rfl rfl rfl rfl hI)
          | cases h1

set_option linter.unusedTactic false in
theorem setAcceptCommitB_ok (cfg : BPConfig) (r : Recs) (ih : RecsOK r)
    (c hb : SCPBallot) (s : BPState) :
    StepOK s (setAcceptCommitB cfg r c hb s) := by
  unfold setAcceptCommitB
  simp only
  split
  · rename_i u e h1
    have hu : Harmless s u := by
      repeat' first | split at h1 | simp only at h1
      all_goals first
        | exact MRes.noConfusion h1
        | (cases h1; exact ⟨rfl, rfl, rfl, rfl, rfl, rfl, rfl⟩)
        | (cases h1
           rename_i heq
           repeat' first
             | (have hbb := harmless_of_eq_err (bumpToBallot_harmless _ _ _) heq
                exact Harmless_trans ⟨rfl, rfl, rfl, rfl, rfl, rfl, rfl⟩ hbb)
             | (cases heq; exact ⟨rfl, rfl, rfl, rfl, rfl, rfl, rfl⟩)
             | exact MRes.noConfusion heq
             | split at heq)
    exact StepOK_err_of_harmless hu e
  · rename_i u dw h1
    have hu : Harmless s u := by
      repeat' first | split at h1 | simp only at h1
      all_goals first
        | exact MRes.noConfusion h1
        | (cases h1; exact ⟨rfl, rfl, rfl, rfl, rfl, rfl, rfl⟩)
        | (cases h1
           rename_i heq
           repeat' first
             | (have hbb := harmless_of_eq_ok (bumpToBallot_harmless _ _ _) heq
                exact Harmless_trans (Harmless_trans
                  ⟨rfl, rfl, rfl, rfl, rfl, rfl, rfl⟩ hbb)
                  ⟨rfl, rfl, rfl, rfl, rfl, rfl, rfl⟩)
             | (cases heq; exact ⟨rfl, rfl, rfl, rfl, rfl, rfl, rfl⟩)
             | exact MRes.noConfusion heq
             | split at heq)
    have H1 : StepOK s (MRes.ok u dw) := StepOK_ok_of_harmless hu dw
    split
    · split
      · exact StepOK_trans H1 (StepOK_err_self _ _)
      · rename_i hbb hhb
        split
        · rename_i u2 e2 h2
          exact StepOK_trans H1 (StepOK_err_of_harmless
            (harmless_of_eq_err (updateCurrentIfNeeded_harmless _ u) h2) e2)
        · rename_i u2 dw2 h2
          have H2 : StepOK s (MRes.ok u2 dw2) := StepOK_trans H1
            (StepOK_ok_of_harmless
              (harmless_of_eq_ok (updateCurrentIfNeeded_harmless _ u) h2) dw2)
          rcases h3 : r.emitCurrentStateStatement u2
              with ⟨t3, u3⟩ | ⟨t3, e3⟩ <;>
            simp only <;>
            have H3 := ih.emit u2 <;>
            rw [h3] at H3
          · exact StepOK_trans H2 H3
          · exact StepOK_trans H2 H3
    · exact H1

theorem setAcceptCommitB_inv (cfg : BPConfig) (r : Recs) (ih : RecsOK r)
    (c hb : SCPBallot) (s t : BPState) (x : Bool) (hI : Inv s)
    (h : setAcceptCommitB cfg r c hb s = .ok t x) : Inv t := by
  unfold setAcceptCommitB at h
  simp only at h
  split at h
  · exact MRes.noConfusion h
  · rename_i u dw h1
    split at h
    · split at h
      · exact MRes.noConfusion h
      · split at h
        · exact MRes.noConfusion h
        · rename_i t3 u3 h3
          split at h
          · exact MRes.noConfusion h
          · rename_i t4 u4 h4
            cases h
            exact ih.emitInv _ _ _ h4
    · rename_i hcond
      cases h
      have hdw : dw = false := by
        rcases dw with _ | _
        · rfl
        · exact absurd rfl hcond
      subst hdw
      repeat' first | split at h1 | simp only at h1
      all_goals first
        | exact MRes.noConfusion h1
        | (cases h1; exact Inv_congr rfl rfl rfl rfl rfl rfl hI)
        | cases h1

theorem J_setLastEnvelope {t2 : BPState} {envW : EnvWrapper}
    (hid : envW.id < t2.nextWrapperId)
    (hnew : ∀ le, t2.lastEnvelope = some le →
      isNewerStatement le.env.statement envW.env.statement = true)
    (hJ : J t2) : J { t2 with lastEnvelope := some envW } := by
  unfold J JB at *
  simp only [Bool.and_eq_true] at hJ ⊢
  obtain ⟨⟨⟨⟨hc1, hc2⟩, hc3⟩, hc4⟩, hc5⟩ := hJ
  refine ⟨⟨⟨⟨?_, ?_⟩, hc3⟩, hc4⟩, hc5⟩
  · simp [hid]
  · rcases hlee : t2.lastEnvelopeEmit with _ | w
    · simp
    · rcases hle : t2.lastEnvelope with _ | le
      · rw [hlee, hle] at hc2
        simp at hc2

      · rw [hlee, hle] at hc2
        simp only [Bool.and_eq_true, Bool.or_eq_true, decide_eq_true_iff]
          at hc2
        obtain ⟨hw, hrel⟩ := hc2
        simp only [Bool.and_eq_true, Bool.or_eq_true, decide_eq_true_iff]
        refine ⟨by omega, Or.inr ?_⟩
        rcases hrel with ⟨hideq, henv⟩ | hnewer
        · rw [henv]
          exact hnew le hle
        · exact isNewerStatement_trans hnewer (hnew le hle)

theorem emitCurrentStateStatementB_ok (cfg : BPConfig) (r : Recs)
    (ih : RecsOK r) (s : BPState) :
    StepOK s (emitCurrentStateStatementB cfg r s) := by
  unfold emitCurrentStateStatementB
  split
  · rename_i t1 e1 h1
    have ht1 : t1 = s := by
      have hs := createStatement_state cfg s
      rw [h1] at hs
      exact hs
    subst ht1
    exact StepOK_err_self _ _
  · rename_i t1 st h1
    obtain ⟨ht1, hIs⟩ := createStatement_ok_inv h1
    subst ht1
    simp only
    split
    · exact StepOK_ok_self _ _
    · have H1 : StepOK t1
          (MRes.ok { t1 with nextWrapperId := t1.nextWrapperId + 1 } ()) := by
        refine ⟨⟨pLe_of_prepared_eq rfl, rfl, Nat.le_max_left _ _⟩,
          fun _ => rfl, fun hJ => J_mono ?_ ?_ ?_ ?_ hJ, Nat.le_succ _⟩ <;>
          first | rfl | exact Nat.le_succ _
      split
      · rename_i t2 e2 h2
        have H2 := ih.pe ⟨t1.nextWrapperId, ⟨st⟩⟩ true
          { t1 with nextWrapperId := t1.nextWrapperId + 1 }
        rw [h2] at H2
        exact StepOK_trans H1 H2
      · rename_i t2 res h2
        have H2 := ih.pe ⟨t1.nextWrapperId, ⟨st⟩⟩ true
          { t1 with nextWrapperId := t1.nextWrapperId + 1 }
        rw [h2] at H2
        have H12 : StepOK t1 (MRes.ok t2 res) := StepOK_trans H1 H2
        split
        · split
          · rename_i hul
            have hn : t1.nextWrapperId + 1 ≤ t2.nextWrapperId := H2.2.2.2
            simp only [Bool.and_eq_true] at hul
            obtain ⟨hce, hrest⟩ := hul
            have hnew : ∀ le, t2.lastEnvelope = some le →
                isNewerStatement le.env.statement
                  ((⟨t1.nextWrapperId, ⟨st⟩⟩ : EnvWrapper)).env.statement
                  = true := by
              intro le hle
              rw [hle] at hrest
              simpa using hrest
            have HJ : StepOK t2 (MRes.ok
                { t2 with
                  lastEnvelope := some ⟨t1.nextWrapperId, ⟨st⟩⟩ } ()) := by
              refine ⟨⟨pLe_of_prepared_eq rfl, rfl, Nat.le_max_left _ _⟩,
                fun _ => rfl,
                fun hJ => J_setLastEnvelope ?_ hnew hJ, Nat.le_refl _⟩
              show t1.nextWrapperId < t2.nextWrapperId
              omega
            exact StepOK_trans H12 (StepOK_trans HJ (StepOK_sendLatest _ ()))
          · exact H12
        · exact StepOK_trans H12 (StepOK_err_self _ _)

theorem emitCurrentStateStatementB_inv (cfg : BPConfig) (r : Recs)
    (ih : RecsOK r) (s t : BPState) (x : Unit)
    (h : emitCurrentStateStatementB cfg r s = .ok t x) : Inv t := by
  unfold emitCurrentStateStatementB at h
  split at h
  · exact MRes.noConfusion h
  · rename_i t1 st h1
    obtain ⟨ht1, hIs⟩ := createStatement_ok_inv h1
    subst ht1
    simp only at h
    split at h
    · cases h
      exact hIs
    · split at h
      · exact MRes.noConfusion h
      · rename_i t2 res h2
        have hIrec : Inv { t1 with nextWrapperId := t1.nextWrapperId + 1 } :=
          Inv_congr rfl rfl rfl rfl rfl rfl hIs
        have hI2 : Inv t2 := ih.peInv _ true _ t2 res hIrec h2
        split at h
        · split at h
          · cases h
            exact sendLatestEnvelope_inv
              (Inv_congr rfl rfl rfl rfl rfl rfl hI2)
          · cases h
            exact hI2
        · exact MRes.noConfusion h

theorem stepFromS2 {s S2 : BPState} {m : MRes α}
    (hemits : S2.emits = s.emits) (hle : S2.lastEnvelope = s.lastEnvelope)
    (hlee : S2.lastEnvelopeEmit = s.lastEnvelopeEmit)
    (hnw : S2.nextWrapperId = s.nextWrapperId) (hlvl1 : 1 ≤ S2.msgLevel)
    (H : StepOK S2 m) : resProps s m.state ∧ m.state.emits = s.emits := by
  cases m with
  | ok u x =>
    simp only [MRes.state]
    obtain ⟨_, he, hj, hn⟩ := H
    have hu : u.emits = s.emits := by rw [he hlvl1, hemits]
    exact ⟨⟨fun _ => hu, fun hJ => hj (J_congr hle hlee hnw hemits hJ),
      by omega⟩, hu⟩
  | err u e =>
    simp only [MRes.state]
    obtain ⟨he, hj, hn⟩ := H
    have hu : u.emits = s.emits := by rw [he hlvl1, hemits]
    exact ⟨⟨fun _ => hu, fun hJ => hj (J_congr hle hlee hnw hemits hJ),
      by omega⟩, hu⟩

/-- The body of `advanceSlot` after the depth guard and ghost update: the
four attempt steps, the conditional bump loop, the heard-from-quorum
check, depth restore and batched broadcast, entered at `S2`. -/
theorem advChain (cfg : BPConfig) (r : Recs) (ih : RecsOK r)
    (hint : SCPStatement) (s S2 : BPState) (m : MRes Unit)
    (hm : m = (match r.attemptAcceptPrepared hint S2 with
      | .err s e => .err s e
      | .ok s w1 =>
        match r.attemptConfirmPrepared hint s with
        | .err s e => .err s e
        | .ok s w2 =>
          match r.attemptAcceptCommit hint s with
          | .err s e => .err s e
          | .ok s w3 =>
            match r.attemptConfirmCommit hint s with
            | .err s e => .err s e
            | .ok s w4 =>
              match (if s.msgLevel = 1 then r.bumpLoop s
                  else .ok s false) with
              | .err s e => .err s e
              | .ok s w5 =>
                let didWork := w1 || w2 || w3 || w4 || w5
                let s := if s.msgLevel = 1 then checkHeardFromQuorum cfg s
                  else s
                let s := { s with msgLevel := s.msgLevel - 1 }
                let s := if didWork then sendLatestEnvelope s else s
                .ok s ()))
    (hprep : S2.prepared = s.prepared)
    (hlvl : S2.msgLevel = s.msgLevel + 1)
    (hmax : S2.maxLevel ≤ max s.maxLevel (MAX_ADVANCE_SLOT_RECURSION - 1))
    (hemits : S2.emits = s.emits) (hle : S2.lastEnvelope = s.lastEnvelope)
    (hlee : S2.lastEnvelopeEmit = s.lastEnvelopeEmit)
    (hnw : S2.nextWrapperId = s.nextWrapperId) :
    StepOK s m ∧
      (m.state.emits = s.emits ∨ ∃ ev, m.state.emits = ev :: s.emits) := by
  subst hm
  have hlvl1 : 1 ≤ S2.msgLevel := by omega
  rcases h1 : r.attemptAcceptPrepared hint S2 with ⟨u1, w1⟩ | ⟨u1, e1⟩ <;>
    simp only <;> have H1 := ih.aap hint S2 <;> rw [h1] at H1
  · rcases h2 : r.attemptConfirmPrepared hint u1 with ⟨u2, w2⟩ | ⟨u2, e2⟩ <;>
      simp only <;> have H2 := ih.acp hint u1 <;> rw [h2] at H2 <;>
      have H12 := StepOK_trans H1 H2
    · rcases h3 : r.attemptAcceptCommit hint u2 with ⟨u3, w3⟩ | ⟨u3, e3⟩ <;>
        simp only <;> have H3 := ih.aac hint u2 <;> rw [h3] at H3 <;>
        have H13 := StepOK_trans H12 H3
      · rcases h4 : r.attemptConfirmCommit hint u3
            with ⟨u4, w4⟩ | ⟨u4, e4⟩ <;>
          simp only <;> have H4 := ih.acc hint u3 <;> rw [h4] at H4 <;>
          have H14 := StepOK_trans H13 H4
        · have H5x : StepOK u4
              (if u4.msgLevel = 1 then r.bumpLoop u4 else .ok u4 false) := by
            split
            · exact ih.bl u4
            · exact StepOK_ok_self u4 false
          rcases h5 : (if u4.msgLevel = 1 then r.bumpLoop u4
              else .ok u4 false) with ⟨u5, w5⟩ | ⟨u5, e5⟩ <;>
            (try simp only) <;> rw [h5] at H5x <;>
            have H15 := StepOK_trans H14 H5x
          · -- all five steps returned normally: restore and broadcast
            obtain ⟨hrp5, hem5⟩ : resProps s u5 ∧ u5.emits = s.emits :=
              stepFromS2 hemits hle hlee hnw hlvl1 H15
            obtain ⟨⟨hp5, hl5, hx5⟩, _⟩ := H15
            obtain ⟨hre5, hrj5, hrn5⟩ := hrp5
            have hchk : Harmless u5
                (if u5.msgLevel = 1 then checkHeardFromQuorum cfg u5
                  else u5) := by
              split
              · exact checkHeardFromQuorum_harmless cfg u5
              · exact Harmless_refl u5
            obtain ⟨c1, c2, c3, c4, c5, c6, c7⟩ := hchk
            generalize hgc : (if u5.msgLevel = 1 then
                checkHeardFromQuorum cfg u5 else u5) = uc
              at c1 c2 c3 c4 c5 c6 c7 ⊢
            try simp only
            split
            · -- didWork: broadcast
              obtain ⟨f1, f2, f3, f4, f5, f6, f7, f8, f9, f10, f11⟩ :=
                sendLatestEnvelope_frame
                  { uc with msgLevel := uc.msgLevel - 1 }
              constructor
              · refine ⟨⟨?_, ?_, ?_⟩, ?_, ?_, ?_⟩
                · refine pLe_trans (pLe_of_prepared_eq hprep)
                    (pLe_trans hp5 (pLe_of_prepared_eq ?_))
                  rw [f3]
                  exact c1
                · rw [f7]
                  show uc.msgLevel - 1 = s.msgLevel
                  omega
                · rw [f8]
                  show uc.maxLevel ≤ max s.maxLevel
                    (MAX_ADVANCE_SLOT_RECURSION - 1)
                  omega
                · intro hs1
                  rw [sendLatestEnvelope_high _
                    (show 1 ≤ uc.msgLevel - 1 by omega)]
                  show uc.emits = s.emits
                  rw [c4]
                  exact hem5
                · intro hJ
                  exact sendLatestEnvelope_J (J_congr c5 c6 c7 c4 (hrj5 hJ))
                · rw [f10]
                  show s.nextWrapperId ≤ uc.nextWrapperId
                  omega
              · rcases sendLatestEnvelope_emits
                    { uc with msgLevel := uc.msgLevel - 1 }
                  with hse | ⟨ev, hse⟩
                · left
                  simp only [MRes.state]
                  rw [hse]
                  show uc.emits = s.emits
                  rw [c4]
                  exact hem5
                · right
                  refine ⟨ev, ?_⟩
                  simp only [MRes.state]
                  rw [hse]
                  show ev :: uc.emits = ev :: s.emits
                  rw [c4, hem5]
            · -- no work was done: no broadcast
              constructor
              · refine ⟨⟨?_, ?_, ?_⟩, ?_, ?_, ?_⟩
                · exact pLe_trans (pLe_of_prepared_eq hprep)
                    (pLe_trans hp5 (pLe_of_prepared_eq c1))
                · show uc.msgLevel - 1 = s.msgLevel
                  omega
                · show uc.maxLevel ≤ max s.maxLevel
                    (MAX_ADVANCE_SLOT_RECURSION - 1)
                  omega
                · intro hs1
                  show uc.emits = s.emits
                  rw [c4]
                  exact hem5
                · intro hJ
                  exact J_congr c5 c6 c7 c4 (hrj5 hJ)
                · show s.nextWrapperId ≤ uc.nextWrapperId
                  omega
              · left
                simp only [MRes.state]
                show uc.emits = s.emits
                rw [c4]
                exact hem5
          · obtain ⟨hrp, hre⟩ := stepFromS2 hemits hle hlee hnw hlvl1 H15
            exact ⟨hrp, Or.inl hre⟩
        · obtain ⟨hrp, hre⟩ := stepFromS2 hemits hle hlee hnw hlvl1 H14
          exact ⟨hrp, Or.inl hre⟩
      · obtain ⟨hrp, hre⟩ := stepFromS2 hemits hle hlee hnw hlvl1 H13
        exact ⟨hrp, Or.inl hre⟩
    · obtain ⟨hrp, hre⟩ := stepFromS2 hemits hle hlee hnw hlvl1 H12
      exact ⟨hrp, Or.inl hre⟩
  · obtain ⟨hrp, hre⟩ := stepFromS2 hemits hle hlee hnw hlvl1 H1
    exact ⟨hrp, Or.inl hre⟩

/-- Invariant preservation through the `advanceSlot` body after the
depth guard. -/
theorem advChain_inv (cfg : BPConfig) (r : Recs) (ih : RecsOK r)
    (hint : SCPStatement) (S2 : BPState) (m : MRes Unit)
    (hm : m = (match r.attemptAcceptPrepared hint S2 with
      | .err s e => .err s e
      | .ok s w1 =>
        match r.attemptConfirmPrepared hint s with
        | .err s e => .err s e
        | .ok s w2 =>
          match r.attemptAcceptCommit hint s with
          | .err s e => .err s e
          | .ok s w3 =>
            match r.attemptConfirmCommit hint s with
            | .err s e => .err s e
            | .ok s w4 =>
              match (if s.msgLevel = 1 then r.bumpLoop s
                  else .ok s false) with
              | .err s e => .err s e
              | .ok s w5 =>
                let didWork := w1 || w2 || w3 || w4 || w5
                let s := if s.msgLevel = 1 then checkHeardFromQuorum cfg s
                  else s
                let s := { s with msgLevel := s.msgLevel - 1 }
                let s := if didWork then sendLatestEnvelope s else s
                .ok s ()))
    (hI : Inv S2) : ∀ t x, m = .ok t x → Inv t := by
  subst hm
  intro t x h
  split at h
  · exact MRes.noConfusion h
  · rename_i u1 w1 heq1
    have hI1 : Inv u1 := ih.aapInv hint S2 u1 w1 hI heq1
    split at h
    · exact MRes.noConfusion h
    · rename_i u2 w2 heq2
      have hI2 : Inv u2 := ih.acpInv hint u1 u2 w2 hI1 heq2
      split at h
      · exact MRes.noConfusion h
      · rename_i u3 w3 heq3
        have hI3 : Inv u3 := ih.aacInv hint u2 u3 w3 hI2 heq3
        split at h
        · exact MRes.noConfusion h
        · rename_i u4 w4 heq4
          have hI4 : Inv u4 := ih.accInv hint u3 u4 w4 hI3 heq4
          split at h
          · exact MRes.noConfusion h
          · rename_i u5 w5 heq5
            have hI5 : Inv u5 := by
              split at heq5
              · exact ih.blInv u4 u5 w5 hI4 heq5
              · cases heq5
                exact hI4
            simp only at h
            cases h
            have hIc : Inv (if u5.msgLevel = 1 then
                checkHeardFromQuorum cfg u5 else u5) := by
              split
              · exact checkHeardFromQuorum_inv hI5
              · exact hI5
            generalize hgc : (if u5.msgLevel = 1 then
                checkHeardFromQuorum cfg u5 else u5) = uc at hIc ⊢
            split
            · exact sendLatestEnvelope_inv
                (Inv_congr rfl rfl rfl rfl rfl rfl hIc)
            · exact Inv_congr rfl rfl rfl rfl rfl rfl hIc

theorem advanceSlotB_ok (cfg : BPConfig) (r : Recs) (ih : RecsOK r)
    (hint : SCPStatement) (s : BPState) :
    StepOK s (advanceSlotB cfg r hint s) := by
  unfold advanceSlotB
  simp only
  split
  · refine ⟨fun _ => rfl, fun hJ => ?_, Nat.le_refl _⟩
    exact hJ
  · rename_i hcap
    refine (advChain cfg r ih hint s
      { s with msgLevel := s.msgLevel + 1, maxLevel := max s.maxLevel (s.msgLevel + 1) }
      _ rfl rfl rfl ?_ rfl rfl rfl rfl).1
    have hc : ¬ MAX_ADVANCE_SLOT_RECURSION ≤ s.msgLevel + 1 := hcap
    show max s.maxLevel (s.msgLevel + 1) ≤
      max s.maxLevel (MAX_ADVANCE_SLOT_RECURSION - 1)
    omega

theorem advanceSlotB_inv (cfg : BPConfig) (r : Recs) (ih : RecsOK r)
    (hint : SCPStatement) (s t : BPState) (x : Unit) (hI : Inv s)
    (h : advanceSlotB cfg r hint s = .ok t x) : Inv t := by
  unfold advanceSlotB at h
  simp only at h
  split at h
  · exact MRes.noConfusion h
  · exact advChain_inv cfg r ih hint
      { s with msgLevel := s.msgLevel + 1, maxLevel := max s.maxLevel (s.msgLevel + 1) }
      _ rfl hI t x h

theorem advanceSlotB_count (cfg : BPConfig) (r : Recs) (ih : RecsOK r)
    (hint : SCPStatement) (s : BPState) :
    (advanceSlotB cfg r hint s).state.emits = s.emits ∨
      ∃ ev, (advanceSlotB cfg r hint s).state.emits = ev :: s.emits := by
  unfold advanceSlotB
  simp only
  split
  · left
    rfl
  · rename_i hcap
    refine (advChain cfg r ih hint s
      { s with msgLevel := s.msgLevel + 1, maxLevel := max s.maxLevel (s.msgLevel + 1) }
      _ rfl rfl rfl ?_ rfl rfl rfl rfl).2
    have hc : ¬ MAX_ADVANCE_SLOT_RECURSION ≤ s.msgLevel + 1 := hcap
    show max s.maxLevel (s.msgLevel + 1) ≤
      max s.maxLevel (MAX_ADVANCE_SLOT_RECURSION - 1)
    omega

theorem processEnvelopeB_ok (cfg : BPConfig) (r : Recs) (ih : RecsOK r)
    (w : EnvWrapper) (self : Bool) (s : BPState) :
    StepOK s (processEnvelopeB cfg r w self s) := by
  unfold processEnvelopeB
  simp only
  split
  · exact StepOK_ok_self _ _
  · split
    · exact StepOK_ok_self _ _
    · split
      · exact StepOK_ok_self _ _
      · split
        · -- record the envelope and run the advance driver
          have hpre : Harmless s (recordEnvelope w
              (if validateValues cfg w.env.statement =
                  ValidationLevel.maybeValid then
                { s with fullyValidated := false } else s)) := by
            refine Harmless_trans ?_ (recordEnvelope_harmless w _)
            split
            · exact ⟨rfl, rfl, rfl, rfl, rfl, rfl, rfl⟩
            · exact Harmless_refl s
          split
          · rename_i u e hq
            have HA := ih.adv w.env.statement (recordEnvelope w
              (if validateValues cfg w.env.statement =
                  ValidationLevel.maybeValid then
                { s with fullyValidated := false } else s))
            rw [hq] at HA
            exact StepOK_trans (StepOK_ok_of_harmless hpre ()) HA
          · rename_i u v hq
            have HA := ih.adv w.env.statement (recordEnvelope w
              (if validateValues cfg w.env.statement =
                  ValidationLevel.maybeValid then
                { s with fullyValidated := false } else s))
            rw [hq] at HA
            exact StepOK_trans (StepOK_ok_of_harmless hpre ()) HA
        · split
          · exact StepOK_err_self _ _
          · split
            · exact StepOK_ok_of_harmless (recordEnvelope_harmless w s) _
            · exact StepOK_ok_self _ _

theorem processEnvelopeB_inv (cfg : BPConfig) (r : Recs) (ih : RecsOK r)
    (w : EnvWrapper) (self : Bool) (s t : BPState) (x : EnvelopeState)
    (hI : Inv s) (h : processEnvelopeB cfg r w self s = .ok t x) : Inv t := by
  unfold processEnvelopeB at h
  simp only at h
  split at h
  · cases h
    exact hI
  · split at h
    · cases h
      exact hI
    · split at h
      · cases h
        exact hI
      · split at h
        · have hIpre : Inv (recordEnvelope w
              (if validateValues cfg w.env.statement =
                  ValidationLevel.maybeValid then
                { s with fullyValidated := false } else s)) := by
            refine recordEnvelope_inv ?_
            split
            · exact Inv_congr rfl rfl rfl rfl rfl rfl hI
            · exact hI
          split at h
          · exact MRes.noConfusion h
          · rename_i u v hq
            cases h
            exact ih.advInv w.env.statement _ _ _ hIpre hq
        · split at h
          · exact MRes.noConfusion h
          · split at h
            · cases h
              exact recordEnvelope_inv hI
            · cases h
              exact hI

theorem processEnvelopeB_count (cfg : BPConfig) (r : Recs) (ih : RecsOK r)
    (w : EnvWrapper) (self : Bool) (s : BPState) :
    (processEnvelopeB cfg r w self s).state.emits = s.emits ∨
      ∃ ev, (processEnvelopeB cfg r w self s).state.emits = ev :: s.emits := by
  unfold processEnvelopeB
  simp only
  split
  · left
    rfl
  · split
    · left
      rfl
    · split
      · left
        rfl
      · split
        · have hpre : Harmless s (recordEnvelope w
              (if validateValues cfg w.env.statement =
                  ValidationLevel.maybeValid then
                { s with fullyValidated := false } else s)) := by
            refine Harmless_trans ?_ (recordEnvelope_harmless w _)
            split
            · exact ⟨rfl, rfl, rfl, rfl, rfl, rfl, rfl⟩
            · exact Harmless_refl s
          have HC := ih.advCount w.env.statement
            (recordEnvelope w
              (if validateValues cfg w.env.statement =
                  ValidationLevel.maybeValid then
                { s with fullyValidated := false } else s))
          rw [hpre.2.2.2.1] at HC
          split
          · rename_i u e hq
            rw [hq] at HC
            simpa using HC
          · rename_i u v hq
            rw [hq] at HC
            simpa using HC
        · split
          · left
            rfl
          · split
            · left
              rfl
            · left
              rfl

/-- The induction step: if every operation at recursion budget `fuel`
satisfies the bundle, so does every operation at budget `fuel + 1`. -/
theorem recsOK_step (cfg : BPConfig) (r : Recs) (ih : RecsOK r) :
    RecsOK (stepRecs cfg r) := by
  constructor
  · exact processEnvelopeB_ok cfg r ih
  · exact processEnvelopeB_inv cfg r ih
  · exact processEnvelopeB_count cfg r ih
  · exact advanceSlotB_ok cfg r ih
  · exact advanceSlotB_inv cfg r ih
  · exact advanceSlotB_count cfg r ih
  · exact bumpLoopB_ok cfg r ih
  · exact bumpLoopB_inv cfg r ih
  · exact attemptBumpB_ok cfg r ih
  · exact attemptBumpB_inv cfg r ih
  · exact abandonBallotB_ok cfg r ih
  · exact abandonBallotB_inv cfg r ih
  · exact bumpStateForceB_ok cfg r ih
  · exact bumpStateForceB_inv cfg r ih
  · exact bumpStateNB_ok cfg r ih
  · exact bumpStateNB_inv cfg r ih
  · exact emitCurrentStateStatementB_ok cfg r ih
  · exact emitCurrentStateStatementB_inv cfg r ih
  · exact attemptAcceptPreparedB_ok cfg r ih
  · exact attemptAcceptPreparedB_inv cfg r ih
  · exact setAcceptPreparedB_ok cfg r ih
  · exact setAcceptPreparedB_inv cfg r ih
  · exact attemptConfirmPreparedB_ok cfg r ih
  · exact attemptConfirmPreparedB_inv cfg r ih
  · exact setConfirmPreparedB_ok cfg r ih
  · exact setConfirmPreparedB_inv cfg r ih
  · exact attemptAcceptCommitB_ok cfg r ih
  · exact attemptAcceptCommitB_inv cfg r ih
  · exact setAcceptCommitB_ok cfg r ih
  · exact setAcceptCommitB_inv cfg r ih
  · exact attemptConfirmCommitB_ok cfg r ih
  · exact attemptConfirmCommitB_inv cfg r ih
  · exact setConfirmCommitB_ok cfg r ih
  · exact setConfirmCommitB_inv cfg r ih

/-- The master induction: at every fuel level, all sixteen operations of
the recursive core satisfy the transition bundle. -/
theorem recsOK_recsAt (cfg : BPConfig) : ∀ fuel, RecsOK (recsAt cfg fuel)
  | 0 => recsOK_base
  | fuel + 1 => recsOK_step cfg (recsAt cfg fuel) (recsOK_recsAt cfg fuel)

/-! ## A concrete three-node configuration

A small closed world used to evaluate the protocol on concrete inputs:
the local node 0 plus peers 1 and 2, quorum = all three nodes,
v-blocking = any of the two peers, a composite candidate `[2]` from
nomination, and a validator that accepts everything. -/

/-- Does the recorded statement of node `n` satisfy `p`? -/
def predHolds (envs : List (NodeID × EnvWrapper)) (n : NodeID)
    (p : SCPStatement → Bool) : Bool :=
  match lookupEnv envs n with
  | some w => p w.env.statement
  | none => false

/-- Ratification for the quorum {0, 1, 2}. -/
def cexRatify (voted : SCPStatement → Bool)
    (envs : List (NodeID × EnvWrapper)) : Bool :=
  predHolds envs 0 voted && predHolds envs 1 voted && predHolds envs 2 voted

/-- A v-blocking set: either peer alone. -/
def cexVBlocking (p : SCPStatement → Bool)
    (envs : List (NodeID × EnvWrapper)) : Bool :=
  predHolds envs 1 p || predHolds envs 2 p

def cexConfig : BPConfig where
  localID := 0
  localQSetHash := 7
  qSetSane := fun _ => true
  validateValue := fun _ => .fullyValidated
  compositeCandidate := some [2]
  federatedAccept := fun voted accepted envs =>
    cexVBlocking accepted envs || cexRatify voted envs
  federatedRatify := cexRatify
  isVBlocking := cexVBlocking
  isQuorum := cexRatify

def valV : Value := [2]

def valW : Value := [1]

/-- Peer 1 votes and accepts ballot `(5, [2])` as prepared. -/
def envA1 : SCPEnvelope :=
  ⟨⟨1, .prepare ⟨7, ⟨5, valV⟩, some ⟨5, valV⟩, none, 0, 0⟩⟩⟩

/-- Peer 2 votes and accepts ballot `(5, [2])` as prepared. -/
def envB1 : SCPEnvelope :=
  ⟨⟨2, .prepare ⟨7, ⟨5, valV⟩, some ⟨5, valV⟩, none, 0, 0⟩⟩⟩

/-- Peer 2 then claims `(4, [1])` confirmed with commit interval
`[1, 2]`: a v-blocking set ahead of the local state. -/
def envB2 : SCPEnvelope := ⟨⟨2, .confirm ⟨⟨4, valW⟩, 4, 1, 2, 7⟩⟩⟩

/-! ## Entry-point and run-level consequences of the master induction -/

theorem processEnvelopeExt_stepOK (cfg : BPConfig) (fuel : Nat)
    (e : SCPEnvelope) (s : BPState) :
    StepOK s (processEnvelopeExt cfg fuel e s) := by
  unfold processEnvelopeExt
  simp only
  have H1 : StepOK s
      (MRes.ok { s with nextWrapperId := s.nextWrapperId + 1 } ()) := by
    refine ⟨⟨pLe_of_prepared_eq rfl, rfl, Nat.le_max_left _ _⟩,
      fun _ => rfl, fun hJ => J_mono ?_ ?_ ?_ ?_ hJ, Nat.le_succ _⟩ <;>
      first | rfl | exact Nat.le_succ _
  exact StepOK_trans H1 ((recsOK_recsAt cfg fuel).pe _ _ _)

theorem processEnvelopeExt_inv (cfg : BPConfig) (fuel : Nat)
    (e : SCPEnvelope) (s t : BPState) (x : EnvelopeState) (hI : Inv s)
    (h : processEnvelopeExt cfg fuel e s = .ok t x) : Inv t := by
  unfold processEnvelopeExt at h
  simp only at h
  have hIrec : Inv { s with nextWrapperId := s.nextWrapperId + 1 } := hI
  exact (recsOK_recsAt cfg fuel).peInv _ _ _ _ _ hIrec h

theorem processEnvelopeExt_count (cfg : BPConfig) (fuel : Nat)
    (e : SCPEnvelope) (s : BPState) :
    (processEnvelopeExt cfg fuel e s).state.emits = s.emits ∨
      ∃ ev, (processEnvelopeExt cfg fuel e s).state.emits = ev :: s.emits :=
  (recsOK_recsAt cfg fuel).peCount ⟨s.nextWrapperId, e⟩ false
    { s with nextWrapperId := s.nextWrapperId + 1 }

/-- Run-level bundle: over any envelope sequence that completes
normally, `p` never decreases, the global invariants and the emission
invariant are preserved, and at most one emission is logged per
envelope. -/
theorem runSeq_props (cfg : BPConfig) (fuel : Nat) :
    ∀ es (s t : BPState), runSeq cfg fuel es s = some t →
      pLe s t ∧ (Inv s → Inv t) ∧ (J s → J t) ∧
        t.emits.length ≤ es.length + s.emits.length
  | [], s, t, h => by
    cases h
    exact ⟨pLe_refl _, id, id, Nat.le_add_left _ _⟩
  | e :: es, s, t, h => by
    simp only [runSeq] at h
    split at h
    · rename_i s1 x h1
      obtain ⟨hp, hInv, hJ, hlen⟩ := runSeq_props cfg fuel es s1 t h
      have HS := processEnvelopeExt_stepOK cfg fuel e s
      rw [h1] at HS
      obtain ⟨⟨hp1, _, _⟩, _, hj1, _⟩ := HS
      have hc := processEnvelopeExt_count cfg fuel e s
      rw [h1] at hc
      simp only [MRes.state] at hc
      refine ⟨pLe_trans hp1 hp,
        fun hI => hInv (processEnvelopeExt_inv cfg fuel e s s1 x hI h1),
        fun hJs => hJ (hj1 hJs), ?_⟩
      rcases hc with hc | ⟨ev, hc⟩
      · rw [hc] at hlen
        simp only [List.length_cons]
        omega
      · rw [hc] at hlen
        simp only [List.length_cons] at hlen ⊢
        omega
    · exact Option.noConfusion h

/-- The two execution-log conjuncts of the emission invariant. -/
theorem J_emitLog {t : BPState} (hJ : J t) :
    goodEventsB t.emits = true ∧ adjOKB t.emits = true := by
  unfold J JB at hJ
  simp only [Bool.and_eq_true] at hJ
  exact ⟨hJ.1.1.2, hJ.1.2⟩

theorem Inv_initial : Inv initialBPState := by decide

theorem J_initial : J initialBPState := by decide

/-! ## Further concrete states and configurations used by the claims -/

/-- A PREPARE-phase state whose current ballot already carries a value. -/
def sxC7 : BPState := { initialBPState with currentBallot := some ⟨5, [1]⟩ }

/-- An EXTERNALIZE-phase state committed to value `[1]`. -/
def sxExt : BPState :=
  { initialBPState with
    phase := .externalize
    currentBallot := some ⟨5, [1]⟩
    prepared := some ⟨5, [1]⟩
    highBallot := some ⟨2, [1]⟩
    commit := some ⟨1, [1]⟩ }

/-- The concrete configuration with an insane companion quorum set. -/
def cfgBadQSet : BPConfig := { cexConfig with qSetSane := fun _ => false }

/-- The concrete configuration whose validator is unsure about every
value. -/
def cfgMaybe : BPConfig :=
  { cexConfig with validateValue := fun _ => .maybeValid }

/-- A shape-insane EXTERNALIZE statement (commit counter 0) whose working
ballot nevertheless carries the committed value `[1]`. -/
def envC5bad : SCPEnvelope := ⟨⟨3, .externalize ⟨⟨0, [1]⟩, 0, 7⟩⟩⟩

/-- A sane EXTERNALIZE statement matching the committed value `[1]`. -/
def envC9 : SCPEnvelope := ⟨⟨3, .externalize ⟨⟨1, [1]⟩, 1, 7⟩⟩⟩

/-! ## The claims -/

/-- C10: restoring ballot state from an envelope
(`setStateFromEnvelope`) throws before recording anything when a current
ballot is already set, leaving the state unchanged; a normal return is
possible only when the ballot protocol has not started yet. -/
theorem C10_restore_only_before_start (w : EnvWrapper) (s : BPState) :
    (s.currentBallot.isSome = true →
      setStateFromEnvelope w s = .err s .setStateAfterStart) ∧
    (∀ t x, setStateFromEnvelope w s = .ok t x → s.currentBallot = none) := by
  constructor
  · intro hb
    unfold setStateFromEnvelope
    rw [if_pos hb]
  · intro t x h
    unfold setStateFromEnvelope at h
    split at h
    · exact MRes.noConfusion h
    · rename_i hb
      cases hcb : s.currentBallot with
      | none => rfl
      | some cb =>
        rw [hcb] at hb
        exact absurd rfl hb

theorem C10_witness :
    setStateFromEnvelope ⟨0, envA1⟩ sxC7 = .err sxC7 .setStateAfterStart :=
  (C10_restore_only_before_start ⟨0, envA1⟩ sxC7).1 (by decide)

/-- C1: each entry point of the ballot protocol (ingesting an external
envelope, an external bump, abandoning the ballot, timer expiry)
preserves the global invariants of `checkInvariants` whenever it returns
normally: in CONFIRM and EXTERNALIZE all of b, p, c, h are set, a set b
has non-zero counter, p' is less than and incompatible with p when both
are set, a set h requires b with h less-and-compatible, and a set c
requires h with c ≤ h ≤ b and equal values. -/
theorem C1_invariants_after_transitions (cfg : BPConfig) (fuel : Nat)
    (s : BPState) (hI : Inv s) :
    (∀ e t x, processEnvelopeExt cfg fuel e s = .ok t x → Inv t) ∧
    (∀ v f t x, bumpState cfg fuel v f s = .ok t x → Inv t) ∧
    (∀ n t x, abandonBallot cfg fuel n s = .ok t x → Inv t) ∧
    (∀ t x, ballotProtocolTimerExpired cfg fuel s = .ok t x → Inv t) := by
  refine ⟨fun e t x h => processEnvelopeExt_inv cfg fuel e s t x hI h,
    fun v f t x h => ?_, fun n t x h => ?_, fun t x h => ?_⟩
  · exact (recsOK_recsAt cfg fuel).bsfInv v f s t x hI h
  · exact (recsOK_recsAt cfg fuel).abandInv n s t x hI h
  · unfold ballotProtocolTimerExpired abandonBallot at h
    have hI2 : Inv { s with timerExpCount := s.timerExpCount + 1 } := hI
    exact (recsOK_recsAt cfg fuel).abandInv 0 _ t x hI2 h

theorem C1_witness :
    (∀ e t x, processEnvelopeExt cexConfig 30 e initialBPState = .ok t x →
      Inv t) ∧
    (∀ v f t x, bumpState cexConfig 30 v f initialBPState = .ok t x →
      Inv t) ∧
    (∀ n t x, abandonBallot cexConfig 30 n initialBPState = .ok t x →
      Inv t) ∧
    (∀ t x, ballotProtocolTimerExpired cexConfig 30 initialBPState =
      .ok t x → Inv t) :=
  C1_invariants_after_transitions cexConfig 30 initialBPState (by decide)

/-- C3: the advance driver is re-entrant up to the hard depth
`MAX_ADVANCE_SLOT_RECURSION = 50` and throws (`recursionCap`) as soon as
the incremented depth reaches it; consequently a `processEnvelope` call
that returns normally never took the nesting depth (ghost `maxLevel`)
beyond 49. -/
theorem C3_advance_recursion_bound (cfg : BPConfig) (fuel : Nat) :
    (∀ hint s, MAX_ADVANCE_SLOT_RECURSION ≤ s.msgLevel + 1 →
      advanceSlot cfg (fuel + 1) hint s =
        .err { s with msgLevel := s.msgLevel + 1 } .recursionCap) ∧
    (∀ w self s t x, s.maxLevel ≤ MAX_ADVANCE_SLOT_RECURSION - 1 →
      processEnvelope cfg fuel w self s = .ok t x →
      t.maxLevel ≤ MAX_ADVANCE_SLOT_RECURSION - 1) := by
  constructor
  · intro hint s hcap
    show advanceSlotB cfg (recsAt cfg fuel) hint s =
      .err { s with msgLevel := s.msgLevel + 1 } .recursionCap
    unfold advanceSlotB
    simp only
    rw [if_pos]
    exact hcap
  · intro w self s t x hmax h
    have H := (recsOK_recsAt cfg fuel).pe w self s
    rw [show (recsAt cfg fuel).processEnvelope w self s =
      processEnvelope cfg fuel w self s from rfl, h] at H
    obtain ⟨⟨_, _, hx⟩, _⟩ := H
    omega

theorem C3_witness :
    advanceSlot cexConfig 30 envA1.statement
      { initialBPState with msgLevel := 49 } =
    .err { initialBPState with msgLevel := 50 } .recursionCap :=
  (C3_advance_recursion_bound cexConfig 29).1 envA1.statement
    { initialBPState with msgLevel := 49 } (by decide)

/-- C4: an envelope from a sender whose recorded statement is not
strictly older than the incoming one (per the statement total order of
`isNewerStatement`) is rejected as INVALID with the whole ballot state,
including the latest-envelope map, unchanged. -/
theorem C4_stale_envelope_rejected (cfg : BPConfig) (fuel : Nat)
    (w : EnvWrapper) (self : Bool) (s : BPState) (old : EnvWrapper)
    (hold : lookupEnv s.latestEnvelopes w.env.statement.nodeID = some old)
    (hnotnew : isNewerStatement old.env.statement w.env.statement = false) :
    processEnvelope cfg (fuel + 1) w self s = .ok s .invalid := by
  show processEnvelopeB cfg (recsAt cfg fuel) w self s = .ok s .invalid
  unfold processEnvelopeB
  simp only [hold, hnotnew]
  split
  · rfl
  · rfl

theorem C4_witness :
    processEnvelope cexConfig 30 ⟨5, envA1⟩ false
      { initialBPState with latestEnvelopes := [(1, ⟨0, envA1⟩)] } =
    .ok { initialBPState with latestEnvelopes := [(1, ⟨0, envA1⟩)] }
      .invalid :=
  C4_stale_envelope_rejected cexConfig 29 ⟨5, envA1⟩ false
    { initialBPState with latestEnvelopes := [(1, ⟨0, envA1⟩)] }
    ⟨0, envA1⟩ rfl (by decide)

/-- C2 (corrected): over any normally completing sequence of external
envelope ingestions, the accepted-prepared ballot `p` never decreases,
and the global invariants are preserved, so a set `h` stays
less-and-compatible with `b` and a set `c` stays below `h` with equal
value.  The original claim that `b` and `h` are themselves
non-decreasing is refuted by the counterexample: accepting a commit
rebases `b` (and lowers `h`) onto the accepted interval. -/
theorem C2_ballot_monotonicity (cfg : BPConfig) (fuel : Nat)
    (es : List SCPEnvelope) (s t : BPState)
    (h : runSeq cfg fuel es s = some t) :
    pLe s t ∧ (Inv s → Inv t) :=
  ⟨(runSeq_props cfg fuel es s t h).1, (runSeq_props cfg fuel es s t h).2.1⟩

theorem C2_witness :
    pLe initialBPState initialBPState ∧
      (Inv initialBPState → Inv initialBPState) :=
  C2_ballot_monotonicity cexConfig 30 [] initialBPState initialBPState rfl

/-- Counterexample to C2 as stated: after two PREPARE envelopes the
local state holds b = h = (5, [2]); the CONFIRM envelope of peer 2 then
makes the node accept commit interval [1, 2] on value [1], rebasing to
b = (5, [1]) and h = (2, [1]) — both strictly below their previous
values in the ballot order. -/
theorem C2_counterexample :
    ((runSeq cexConfig 30 [envA1, envB1] initialBPState).map
      (fun s => (s.currentBallot, s.highBallot)) =
        some (some ⟨5, [2]⟩, some ⟨5, [2]⟩)) ∧
    ((runSeq cexConfig 30 [envA1, envB1, envB2] initialBPState).map
      (fun s => (s.currentBallot, s.highBallot)) =
        some (some ⟨5, [1]⟩, some ⟨2, [1]⟩)) ∧
    compareBallots ⟨5, [1]⟩ ⟨5, [2]⟩ = .lt ∧
    compareBallots ⟨2, [1]⟩ ⟨5, [2]⟩ = .lt := by decide

/-- C5 (corrected): in phase EXTERNALIZE with committed ballot `c`, an
envelope whose working ballot's value differs from `c.value` is rejected
as INVALID with the state unchanged; an envelope with the matching value
is recorded and answered VALID with no advance step — provided it also
passes the earlier gates (statement sane, strictly newer than the
sender's recorded statement, values not invalid), which the original
claim omitted (see the counterexample). -/
theorem C5_externalize_guard (cfg : BPConfig) (fuel : Nat)
    (w : EnvWrapper) (self : Bool) (s : BPState) (c : SCPBallot)
    (hph : s.phase = .externalize) (hc : s.commit = some c) :
    ((getWorkingBallot w.env.statement).value ≠ c.value →
      processEnvelope cfg (fuel + 1) w self s = .ok s .invalid) ∧
    (isStatementSane cfg w.env.statement self = true →
     (∀ old, lookupEnv s.latestEnvelopes w.env.statement.nodeID = some old →
        isNewerStatement old.env.statement w.env.statement = true) →
     validateValues cfg w.env.statement ≠ .invalid →
     (getWorkingBallot w.env.statement).value = c.value →
      processEnvelope cfg (fuel + 1) w self s =
        .ok (recordEnvelope w s) .valid ∧
      (recordEnvelope w s).phase = .externalize) := by
  constructor
  · intro hval
    show processEnvelopeB cfg (recsAt cfg fuel) w self s = .ok s .invalid
    unfold processEnvelopeB
    simp only
    split
    · rfl
    · split
      · rfl
      · split
        · rfl
        · split
          · rename_i hx
            exact absurd hph hx
          · rw [hc]
            simp only
            rw [if_neg (fun hcon => hval hcon.symm)]
  · intro hsane hnewer hvnotinv hveq
    refine ⟨?_, hph⟩
    show processEnvelopeB cfg (recsAt cfg fuel) w self s =
      .ok (recordEnvelope w s) .valid
    have hnewval : (match lookupEnv s.latestEnvelopes
        w.env.statement.nodeID with
      | none => true
      | some old => isNewerStatement old.env.statement w.env.statement) =
        true := by
      rcases hl : lookupEnv s.latestEnvelopes w.env.statement.nodeID
          with _ | old
      · rfl
      · exact hnewer old hl
    unfold processEnvelopeB
    simp only [hsane, hnewval, hc, hph, Bool.not_true]
    rw [if_neg hvnotinv]
    simp only [ne_eq, not_true_eq_false, if_false, ite_false]
    rw [if_pos hveq.symm]
    simp

theorem C5_witness :
    sxExt.phase = SCPPhase.externalize ∧
    ((getWorkingBallot envB2.statement).value ≠ ([1] : Value) →
      processEnvelope cexConfig 30 ⟨0, envB2⟩ false sxExt =
        .ok sxExt .invalid) :=
  ⟨by decide,
    fun hv => ((C5_externalize_guard cexConfig 29 ⟨0, envB2⟩ false sxExt
      ⟨1, [1]⟩ (by decide) (by decide)).1 hv)⟩

/-- Counterexample to C5 as stated: the working ballot of this
EXTERNALIZE statement carries exactly the committed value `[1]`, yet
`processEnvelope` answers INVALID (and records nothing) because the
statement is not sane — the claim's "value equal, hence recorded and
VALID" needs the earlier sanity, newness and validation gates. -/
theorem C5_counterexample :
    sxExt.phase = SCPPhase.externalize ∧
    sxExt.commit = some ⟨1, [1]⟩ ∧
    (getWorkingBallot envC5bad.statement).value = [1] ∧
    processEnvelope cexConfig 30 ⟨0, envC5bad⟩ false sxExt =
      .ok sxExt .invalid := by decide

/-- C8: along any normally completing run from the fresh slot state,
every logged broadcast happened at recursion depth 0 on a fully
validated slot, consecutive broadcasts carry different envelopes, and at
most one broadcast is logged per ingested envelope. -/
theorem C8_emission_discipline (cfg : BPConfig) (fuel : Nat)
    (es : List SCPEnvelope) (t : BPState)
    (h : runSeq cfg fuel es initialBPState = some t) :
    goodEventsB t.emits = true ∧ adjOKB t.emits = true ∧
      t.emits.length ≤ es.length := by
  obtain ⟨_, _, hJ, hlen⟩ := runSeq_props cfg fuel es initialBPState t h
  obtain ⟨hg, ha⟩ := J_emitLog (hJ J_initial)
  refine ⟨hg, ha, ?_⟩
  simpa using hlen

theorem C8_witness :
    goodEventsB initialBPState.emits = true ∧
    adjOKB initialBPState.emits = true ∧
    initialBPState.emits.length ≤ ([] : List SCPEnvelope).length :=
  C8_emission_discipline cexConfig 30 [] initialBPState rfl

/-- Shape conditions exactly as the specification phrases them, variant
by variant, for comparison against the source's sanity check. -/
def sanitySpecB (st : SCPStatement) (self : Bool) : Bool :=
  match st.pledges with
  | .prepare p =>
    (self || decide (p.ballot.counter > 0)) &&
    (match p.prepared, p.preparedPrime with
     | some prep, some prepPrime =>
       decide (compareBallots prepPrime prep ≠ .gt) &&
         decide (prepPrime.value ≠ prep.value)
     | _, _ => true) &&
    (decide (p.nH = 0) ||
      (match p.prepared with
       | some prep => decide (p.nH ≤ prep.counter)
       | none => false)) &&
    (decide (p.nC = 0) ||
      (decide (p.nH ≠ 0) && decide (p.ballot.counter ≥ p.nH) &&
        decide (p.nH ≥ p.nC)))
  | .confirm c =>
    decide (c.ballot.counter > 0) && decide (c.nH ≤ c.ballot.counter) &&
      decide (c.nCommit ≤ c.nH)
  | .externalize e =>
    decide (e.commit.counter > 0) && decide (e.nH ≥ e.commit.counter)

/-- C6 (corrected): the sanity check equals the claim's per-variant
shape conditions conjoined with one more gate the claim omits — the
statement's companion quorum set must resolve and be sane — and its
failure makes processEnvelope answer INVALID. -/
theorem C6_statement_sanity (cfg : BPConfig) :
    (∀ st self, isStatementSane cfg st self =
      (cfg.qSetSane st && sanitySpecB st self)) ∧
    (∀ fuel (w : EnvWrapper) self s,
      isStatementSane cfg w.env.statement self = false →
      processEnvelope cfg (fuel + 1) w self s = .ok s .invalid) := by
  have hshape : ∀ st self, statementShapeSane st self = sanitySpecB st self := by
    intro st self
    rcases st with ⟨n, pl⟩
    rcases pl with p | c | e <;>
      simp [statementShapeSane, sanitySpecB,
        areBallotsLessAndIncompatible, areBallotsCompatible, decide_not]
  constructor
  · intro st self
    unfold isStatementSane
    rw [hshape]
  · intro fuel w self s hbad
    show processEnvelopeB cfg (recsAt cfg fuel) w self s = .ok s .invalid
    unfold processEnvelopeB
    simp only [hbad, Bool.not_false]
    simp

theorem C6_witness :
    processEnvelope cfgBadQSet 30 ⟨0, envA1⟩ false initialBPState =
      .ok initialBPState .invalid :=
  (C6_statement_sanity cfgBadQSet).2 29 ⟨0, envA1⟩ false initialBPState
    (by decide)

/-- Counterexample to C6 as stated: this statement satisfies every shape
condition the claim lists, yet the sanity check rejects it because its
companion quorum set is not sane — a conjunct the claim omits. -/
theorem C6_counterexample :
    sanitySpecB envA1.statement false = true ∧
    isStatementSane cfgBadQSet envA1.statement false = false := by decide

/-- C7 (corrected): with a current ballot `cb`, `abandonBallot 0`
delegates to a bump to counter `(cb.counter + 1) mod 2^32` and
`abandonBallot n` with `n ≠ 0` to a bump to exactly counter `n`; the
value handed to the bump prefers the nomination composite candidate,
falling back to the current ballot's value only when the composite is
absent or empty — the opposite of the precedence the original claim
states (see the counterexample). -/
theorem C7_abandon_ballot_bump (cfg : BPConfig) (fuel : Nat) (s : BPState)
    (cb : SCPBallot) (hcb : s.currentBallot = some cb) :
    (∀ cv, cfg.compositeCandidate = some cv → cv ≠ [] →
      (abandonBallot cfg (fuel + 2) 0 s =
        (recsAt cfg fuel).bumpStateN cv ((cb.counter + 1) % 4294967296) s) ∧
      (∀ n, n ≠ 0 → abandonBallot cfg (fuel + 2) n s =
        (recsAt cfg (fuel + 1)).bumpStateN cv n s)) ∧
    ((cfg.compositeCandidate = none ∨ cfg.compositeCandidate = some []) →
     cb.value ≠ [] →
      abandonBallot cfg (fuel + 2) 0 s =
        (recsAt cfg fuel).bumpStateN cb.value
          ((cb.counter + 1) % 4294967296) s) := by
  constructor
  · intro cv hcv hne
    have hie : cv.isEmpty = false := by
      cases cv
      · exact absurd rfl hne
      · rfl
    constructor
    · show abandonBallotB cfg (recsAt cfg (fuel + 1)) 0 s = _
      unfold abandonBallotB
      simp only [hcv, hie, Bool.false_eq_true, if_false, ite_false,
        if_pos rfl]
      show bumpStateForceB cfg (recsAt cfg fuel) cv true s = _
      unfold bumpStateForceB
      simp only [hcb, Bool.not_true, Bool.false_and, Bool.false_eq_true,
        if_false, ite_false]
    · intro n hn
      show abandonBallotB cfg (recsAt cfg (fuel + 1)) n s = _
      unfold abandonBallotB
      simp only [hcv, hie, Bool.false_eq_true, if_false, ite_false]
      rw [if_neg hn]
  · intro hnone hne
    have hie : cb.value.isEmpty = false := by
      cases hx : cb.value
      · exact absurd hx hne
      · rfl
    show abandonBallotB cfg (recsAt cfg (fuel + 1)) 0 s = _
    unfold abandonBallotB
    rcases hnone with hnone | hnone <;>
      simp only [hnone, hcb, hie, List.isEmpty_nil, Bool.false_eq_true,
        if_false, ite_false, if_pos rfl] <;>
      · show bumpStateForceB cfg (recsAt cfg fuel) cb.value true s = _
        unfold bumpStateForceB
        simp only [hcb, Bool.not_true, Bool.false_and, Bool.false_eq_true,
          if_false, ite_false]

theorem C7_witness :
    abandonBallot cexConfig 30 0 sxC7 =
      (recsAt cexConfig 28).bumpStateN [2] 6 sxC7 :=
  ((C7_abandon_ballot_bump cexConfig 28 sxC7 ⟨5, [1]⟩ rfl).1 [2] rfl
    (by decide)).1

/-- Counterexample to C7 as stated: the current ballot already carries
value `[1]`, yet abandoning the ballot bumps to the nomination composite
candidate `[2]` — the composite is preferred even when the current
ballot has a value. -/
theorem C7_counterexample :
    sxC7.currentBallot = some ⟨5, [1]⟩ ∧
    cexConfig.compositeCandidate = some [2] ∧
    (abandonBallot cexConfig 30 0 sxC7).state.currentBallot =
      some ⟨6, [2]⟩ := by decide

/-- C9 (corrected): a statement whose extracted values include one the
validator rejects is answered INVALID with no state change; a worst
verdict of MAYBE_VALID clears the fully-validated flag and processing
continues (record, then advance) — but only outside EXTERNALIZE; in
phase EXTERNALIZE the flag is left untouched, which the original claim,
quantified over every envelope, misses (see the counterexample). -/
theorem C9_value_validation (cfg : BPConfig) (fuel : Nat) (w : EnvWrapper)
    (self : Bool) (s : BPState) :
    (validateValues cfg w.env.statement = .invalid →
      processEnvelope cfg (fuel + 1) w self s = .ok s .invalid) ∧
    (isStatementSane cfg w.env.statement self = true →
     (∀ old, lookupEnv s.latestEnvelopes w.env.statement.nodeID = some old →
        isNewerStatement old.env.statement w.env.statement = true) →
     validateValues cfg w.env.statement = .maybeValid →
     s.phase ≠ .externalize →
      processEnvelope cfg (fuel + 1) w self s =
        (match (recsAt cfg fuel).advanceSlot w.env.statement
            (recordEnvelope w { s with fullyValidated := false }) with
         | .err u e => .err u e
         | .ok u _ => .ok u .valid)) := by
  constructor
  · intro hval
    show processEnvelopeB cfg (recsAt cfg fuel) w self s = .ok s .invalid
    unfold processEnvelopeB
    simp only [hval]
    split
    · rfl
    · split
      · rfl
      · simp
  · intro hsane hnewer hval hph
    show processEnvelopeB cfg (recsAt cfg fuel) w self s = _
    have hnewval : (match lookupEnv s.latestEnvelopes
        w.env.statement.nodeID with
      | none => true
      | some old => isNewerStatement old.env.statement w.env.statement) =
        true := by
      rcases hl : lookupEnv s.latestEnvelopes w.env.statement.nodeID
          with _ | old
      · rfl
      · exact hnewer old hl
    unfold processEnvelopeB
    simp only [hsane, hnewval, hval, Bool.not_true]
    rw [if_pos hph]
    simp

theorem C9_witness :
    processEnvelope cexConfig 30 ⟨0, ⟨⟨3,
        .prepare ⟨7, ⟨0, []⟩, none, none, 0, 0⟩⟩⟩⟩ false initialBPState =
      .ok initialBPState .invalid :=
  (C9_value_validation cexConfig 29 ⟨0, ⟨⟨3,
      .prepare ⟨7, ⟨0, []⟩, none, none, 0, 0⟩⟩⟩⟩ false initialBPState).1
    (by decide)

/-- Counterexample to C9 as stated: under a validator answering
MAYBE_VALID for every value, this sane EXTERNALIZE-phase ingestion is
answered VALID and recorded, yet the fully-validated flag stays true —
the flag is only cleared outside EXTERNALIZE. -/
theorem C9_counterexample :
    validateValues cfgMaybe envC9.statement = .maybeValid ∧
    sxExt.phase = SCPPhase.externalize ∧
    processEnvelope cfgMaybe 30 ⟨0, envC9⟩ false sxExt =
      .ok (recordEnvelope ⟨0, envC9⟩ sxExt) .valid ∧
    (recordEnvelope ⟨0, envC9⟩ sxExt).fullyValidated = true := by decide

end SCPB